import Mathlib

/-!
Verification development for the code-generator pipeline
(contract registry, cross-stack quality coordinator, per-component
refinement loop, event channel).

The Python sources are shallowly embedded: dictionaries become
association lists with Python-dict insert/overwrite semantics, scores
become rationals, stateful methods become explicit state-passing
functions, and raising code returns `Except`.  Wall-clock values
(timestamps, durations) and generated uuids are environment inputs with
no influence on any verified property; they are embedded as fixed
placeholder strings.
-/

namespace CodeGen

/-! ## Python-dict association lists

A Python `dict` is embedded as a `List (String × α)` whose keys are kept
unique.  `dictInsert` is `d[k] = v`: it replaces the value in place when
the key is present (keeping the original position, as CPython does) and
appends otherwise. -/

def dictInsert (k : String) (v : α) : List (String × α) → List (String × α)
  | [] => [(k, v)]
  | (k₀, v₀) :: rest =>
    if k₀ = k then (k, v) :: rest else (k₀, v₀) :: dictInsert k v rest

def dictGet? (k : String) : List (String × α) → Option α
  | [] => none
  | (k₀, v₀) :: rest => if k₀ = k then some v₀ else dictGet? k rest

def dictKeys (d : List (String × α)) : List String :=
  d.map Prod.fst

/-- `d.update(e)` (Python `dict.update`): fold the entries of `e` over `d`. -/
def dictUpdate (d e : List (String × α)) : List (String × α) :=
  e.foldl (fun acc p => dictInsert p.1 p.2 acc) d

/-! ## Python string helpers -/

/-- Python `\s` whitespace class: space, tab, newline, CR, FF, VT. -/
def pyWs (c : Char) : Bool :=
  c = ' ' || c = '\t' || c = '\n' || c = '\r' || c = '\x0c' || c = '\x0b'

def dropWhileWs (cs : List Char) : List Char :=
  cs.dropWhile pyWs

/-- Python `str.strip()` with the default whitespace set. -/
def pyStrip (s : String) : String :=
  ⟨(dropWhileWs (dropWhileWs s.toList.reverse).reverse)⟩

/-- Python `needle in haystack` on strings (substring containment). -/
def strContains (haystack needle : String) : Bool :=
  go needle.toList haystack.toList
where
  go (pat : List Char) : List Char → Bool
    | [] => pat.isPrefixOf []
    | c :: rest => pat.isPrefixOf (c :: rest) || go pat rest

/-- Python `str.count(c)` for a single-character needle. -/
def pyCountChar (s : String) (c : Char) : Nat :=
  s.toList.count c

/-! ## A miniature regex engine

Every pattern the embedded code uses is an alternation of sequences of
string literals, `\s*`, `\s+` and (newline-free) `.*`.  `re.search`
only ever feeds a Boolean decision, so the engine decides existence of
a match.  Case-insensitive searches are run on lowercased subject text
against lowercase literals, which matches `re.IGNORECASE` for the ASCII
patterns in the sources. -/

inductive RTok
  | lit (s : String)
  | ws0
  | ws1
  | dot0
deriving Repr, DecidableEq

def matchToks : List RTok → List Char → Bool
  | [], _ => true
  | RTok.lit s :: ts, cs =>
    if h : s.toList.isPrefixOf cs then matchToks ts (cs.drop s.toList.length) else false
  | RTok.ws0 :: ts, cs =>
    matchToks ts cs ||
      (match cs with
       | [] => false
       | c :: rest => pyWs c && matchToks (RTok.ws0 :: ts) rest)
  | RTok.ws1 :: ts, cs =>
    (match cs with
     | [] => false
     | c :: rest => pyWs c && matchToks (RTok.ws0 :: ts) rest)
  | RTok.dot0 :: ts, cs =>
    matchToks ts cs ||
      (match cs with
       | [] => false
       | c :: rest => !(c = '\n') && matchToks (RTok.dot0 :: ts) rest)
termination_by ts cs => (cs.length, ts.length)
decreasing_by
  · simp_wf
    have hp : s.toList <+: cs := by
      rw [← List.isPrefixOf_iff_prefix]; exact h
    have hle : s.toList.length ≤ cs.length := hp.length_le
    have hsl : s.toList.length = s.length := rfl
    rcases Nat.eq_zero_or_pos s.toList.length with h0 | h0
    · apply Prod.Lex.right' <;> omega
    · apply Prod.Lex.left
      omega
  · simp_wf
    apply Prod.Lex.right' <;> simp
  · simp_wf
    apply Prod.Lex.left
    simp
  · simp_wf
    apply Prod.Lex.left
    simp
  · simp_wf
    apply Prod.Lex.right' <;> simp
  · simp_wf
    apply Prod.Lex.left
    simp

def searchToksIn (ts : List RTok) : List Char → Bool
  | [] => matchToks ts []
  | c :: rest => matchToks ts (c :: rest) || searchToksIn ts rest

/-- `re.search` over an alternation of token sequences. -/
def rxSearch (alts : List (List RTok)) (s : String) : Bool :=
  alts.any fun ts => searchToksIn ts s.toList

/-! ## Contract registry (`src/core/contract_registry.py`)

Opaque `Dict[str, Any]` schema payloads are embedded as string
association lists (the sources only ever store the empty dict in them).
`dependencies=None` and `dependencies=[]` are both falsy in Python and
behave identically in `register_feature_contract`, so the field is a
plain list.  Disk persistence (`_save_contract_to_disk`) has no effect
on the in-memory registry and is not embedded. -/

structure APIEndpoint where
  method : String
  path : String
  input_schema : List (String × String) := []
  output_schema : List (String × String) := []
  authentication_required : Bool := true
  rate_limit : Nat := 100
  description : String := ""
  handler_type : String := "backend"
deriving Repr, DecidableEq

structure DataModel where
  name : String
  schema : List (String × String) := []
  relationships : List String := []
  table_name : String := ""
  indexes : List String := []
  constraints : List String := []
deriving Repr, DecidableEq

structure FeatureContract where
  feature_name : String
  endpoints : List APIEndpoint
  models : List DataModel
  dependencies : List String := []
  security_requirements : List String := []
  created_by : String := ""
  created_at : String := ""
deriving Repr, DecidableEq

/-- Python `set(contract.dependencies)` iterates in an unspecified
order; only membership is ever consumed downstream, so the dependency
sets are kept as the contracts' dependency lists. -/
structure RegistryState where
  feature_contracts : List (String × FeatureContract) := []
  endpoint_registry : List (String × APIEndpoint) := []
  model_registry : List (String × DataModel) := []
  dependency_graph : List (String × List String) := []
deriving Repr, DecidableEq

def emptyRegistry : RegistryState := {}

def endpointKey (ep : APIEndpoint) : String :=
  ep.method ++ " " ++ ep.path

def register_feature_contract (st : RegistryState) (contract : FeatureContract)
    : RegistryState :=
  let contract := { contract with created_at := "" }
  let st := { st with
    feature_contracts := dictInsert contract.feature_name contract st.feature_contracts }
  let st := { st with
    endpoint_registry :=
      contract.endpoints.foldl (fun acc ep => dictInsert (endpointKey ep) ep acc)
        st.endpoint_registry }
  let st := { st with
    model_registry :=
      contract.models.foldl (fun acc m => dictInsert m.name m acc) st.model_registry }
  if contract.dependencies.isEmpty then st
  else { st with
    dependency_graph :=
      dictInsert contract.feature_name contract.dependencies st.dependency_graph }

def get_feature_contract (st : RegistryState) (feature_name : String)
    : Option FeatureContract :=
  dictGet? feature_name st.feature_contracts

def get_all_endpoints (st : RegistryState) : List APIEndpoint :=
  st.endpoint_registry.map Prod.snd

def get_all_models (st : RegistryState) : List DataModel :=
  st.model_registry.map Prod.snd

/-- `_has_circular_dependency`.  The Python recursion mutates one
`visited` set, adding the feature on entry and removing it on exit, so
every recursive call observes exactly the callers' path; the embedding
passes that path explicitly.  The recursion needs no fuel in Python
because a repeated feature trips the `visited` guard; the embedding
bounds the depth by `g.length + 2`, which the guard keeps unreachable
(a path of distinct graph keys is at most `g.length` long). -/
def has_circular_dependency_aux (g : List (String × List String))
    : Nat → String → List String → List String → Bool
  | 0, _, _, _ => false
  | fuel + 1, feature, dependencies, visited =>
    if feature ∈ visited then true
    else
      dependencies.any fun dep =>
        match dictGet? dep g with
        | some ds => has_circular_dependency_aux g fuel dep ds (feature :: visited)
        | none => false

def has_circular_dependency (g : List (String × List String))
    (feature : String) (dependencies : List String) : Bool :=
  has_circular_dependency_aux g (g.length + 2) feature dependencies []

structure ConsistencyIssues where
  missing_endpoints : List String
  missing_models : List String
  dependency_conflicts : List String
  naming_conflicts : List String
deriving Repr, DecidableEq

def validate_cross_stack_consistency (st : RegistryState) : ConsistencyIssues :=
  let endpoint_paths := st.endpoint_registry.map fun p => p.2.path
  let naming :=
    if endpoint_paths.length ≠ endpoint_paths.dedup.length then
      ["Duplicate endpoint paths detected"]
    else []
  let conflicts :=
    (st.dependency_graph.filter fun p =>
        has_circular_dependency st.dependency_graph p.1 p.2).map
      fun p => "Circular dependency in " ++ p.1
  { missing_endpoints := []
    missing_models := []
    dependency_conflicts := conflicts
    naming_conflicts := naming }

/-- Reachability in the dependency graph in at most `n` steps
(reflexive).  Used to state acyclicity decidably. -/
def reach0B (g : List (String × List String)) : Nat → String → String → Bool
  | 0, x, y => x = y
  | n + 1, x, y =>
    x = y || ((dictGet? x g).getD []).any fun d => reach0B g n d y

/-- Some graph key lies on a directed cycle (a bound of
`g.length + 2` steps covers every simple cycle). -/
def hasCycleB (g : List (String × List String)) : Bool :=
  (g.map Prod.fst).any fun f =>
    ((dictGet? f g).getD []).any fun d => reach0B g (g.length + 2) d f

/-! ## Event channel (`src/core/event_bus.py`)

Callbacks are identified by the number they were registered under
(`next_id`); the claims under verification concern the subscriber
tables and which callbacks a publish invokes, not the callback bodies.
Event payloads, uuids and timestamps do not feed back into the
subscriber tables, so the history records event types only. -/

structure BusState where
  subscribers : List (String × List Nat) := []
  event_history : List String := []
  next_id : Nat := 0
deriving Repr, DecidableEq

def emptyBus : BusState := {}

def bus_subscribe (event_type : String) (s : BusState) : BusState :=
  let subs := (dictGet? event_type s.subscribers).getD []
  { s with
    subscribers := dictInsert event_type (subs ++ [s.next_id]) s.subscribers
    next_id := s.next_id + 1 }

/-- `publish` returns the new state together with the callbacks it
fires (`self.subscribers.get(event_type, [])`); each is run through
`_safe_callback`, which isolates its exceptions. -/
def bus_publish (event_type : String) (s : BusState) : BusState × List Nat :=
  let hist := s.event_history ++ [event_type]
  let hist := if hist.length > 1000 then hist.drop (hist.length - 1000) else hist
  ({ s with event_history := hist }, (dictGet? event_type s.subscribers).getD [])

/-- `wait_for_event` registers its resolving callback through
`subscribe` and arms a timeout task; nothing in the module ever removes
a subscriber. -/
def bus_wait_for_event (event_type : String) (s : BusState) : BusState :=
  bus_subscribe event_type s

inductive BusOp
  | subscribe (event_type : String)
  | publish (event_type : String)
  | wait_for_event (event_type : String)
deriving Repr, DecidableEq

def bus_step (s : BusState) : BusOp → BusState
  | BusOp.subscribe et => bus_subscribe et s
  | BusOp.publish et => (bus_publish et s).1
  | BusOp.wait_for_event et => bus_wait_for_event et s

def bus_run (s : BusState) (ops : List BusOp) : BusState :=
  ops.foldl bus_step s

def subsOf (s : BusState) (event_type : String) : List Nat :=
  (dictGet? event_type s.subscribers).getD []

/-! ## Cross-stack quality coordinator (`src/core/quality_coordinator.py`)

The coordinator consumes duck-typed per-handler results; the fields the
validators read are `quality_score`, `code_files` and the contract
entry lists, embedded below (`hasattr` checks always succeed on the
typed embedding).  Validators are total functions here, so the
coordinator's per-validator `except` arm — which downgrades a crashed
checker to a warning — has no corresponding case.  Python `set`
iteration order is unspecified; sets of strings are embedded as
first-occurrence deduplicated lists, which fixes one of the admissible
orders. -/

structure ApiEndpointDecl where
  method : String
  path : String
deriving Repr, DecidableEq

/-- One entry of a frontend `api_calls` contract list; the validator
reads `api.get("endpoint", "")`. -/
structure ApiCallDecl where
  endpoint : String
deriving Repr, DecidableEq

structure NamedDecl where
  name : String
deriving Repr, DecidableEq

structure CoordContracts where
  api_endpoints : List ApiEndpointDecl := []
  api_calls : List ApiCallDecl := []
  models_created : List NamedDecl := []
  tables_created : List NamedDecl := []
deriving Repr, DecidableEq

structure CoordResult where
  quality_score : ℚ := 0
  code_files : List (String × String) := []
  contracts : CoordContracts := {}
deriving Repr, DecidableEq

structure CrossStackIssue where
  issue_type : String
  severity : String
  description : String
  affected_handlers : List String
  suggested_fix : String
deriving Repr, DecidableEq

/-- Python `set(xs)` keeping the first occurrence of each element. -/
def pySet (xs : List String) : List String :=
  xs.foldl (fun acc x => if x ∈ acc then acc else acc ++ [x]) []

def pySetDiff (a b : List String) : List String :=
  a.filter fun x => x ∉ b

/-- Rendering of `f"{list(xs)}"` for a list of Python strings. -/
def pyReprStrList (xs : List String) : String :=
  "[" ++ String.intercalate ", " (xs.map fun x => "\x27" ++ x ++ "\x27") ++ "]"

def validate_api_consistency (handler_results : List (String × CoordResult))
    : ℚ × List CrossStackIssue :=
  match dictGet? "backend" handler_results, dictGet? "frontend" handler_results with
  | some backend_result, some frontend_result =>
    let backend_apis := backend_result.contracts.api_endpoints
    let frontend_apis := frontend_result.contracts.api_calls
    let backend_endpoints := pySet (backend_apis.map fun api => api.method ++ " " ++ api.path)
    let frontend_calls := pySet (frontend_apis.map fun api => api.endpoint)
    let missing_backend := pySetDiff frontend_calls backend_endpoints
    let unused_backend := pySetDiff backend_endpoints frontend_calls
    let score : ℚ := 10
    let (score, issues) :=
      if !missing_backend.isEmpty then
        (score - 3,
         [{ issue_type := "contract_mismatch"
            severity := "critical"
            description := "Frontend calls missing backend endpoints: " ++
              pyReprStrList missing_backend
            affected_handlers := ["frontend", "backend"]
            suggested_fix := "Add missing backend endpoints or remove unused frontend calls" }])
      else (score, ([] : List CrossStackIssue))
    let (score, issues) :=
      if !unused_backend.isEmpty then
        (score - 1,
         issues ++
           [{ issue_type := "contract_mismatch"
              severity := "warning"
              description := "Backend endpoints not used by frontend: " ++
                pyReprStrList unused_backend
              affected_handlers := ["frontend", "backend"]
              suggested_fix := "Remove unused endpoints or add frontend integration" }])
      else (score, issues)
    (max 0 score, issues)
  | _, _ => (10, [])

def validate_data_model_consistency (handler_results : List (String × CoordResult))
    : ℚ × List CrossStackIssue :=
  match dictGet? "backend" handler_results, dictGet? "database" handler_results with
  | some backend_result, some database_result =>
    let backend_models := pySet (backend_result.contracts.models_created.map NamedDecl.name)
    let database_models := pySet (database_result.contracts.tables_created.map NamedDecl.name)
    let missing_database := pySetDiff backend_models database_models
    let missing_backend := pySetDiff database_models backend_models
    let score : ℚ := 10
    let (score, issues) :=
      if !missing_database.isEmpty then
        (score - 2,
         [{ issue_type := "contract_mismatch"
            severity := "critical"
            description := "Backend models missing database tables: " ++
              pyReprStrList missing_database
            affected_handlers := ["backend", "database"]
            suggested_fix := "Create missing database tables or remove unused backend models" }])
      else (score, ([] : List CrossStackIssue))
    let (score, issues) :=
      if !missing_backend.isEmpty then
        (score - 1,
         issues ++
           [{ issue_type := "contract_mismatch"
              severity := "warning"
              description := "Database tables not used by backend: " ++
                pyReprStrList missing_backend
              affected_handlers := ["backend", "database"]
              suggested_fix := "Add backend models or remove unused database tables" }])
      else (score, issues)
    (max 0 score, issues)
  | _, _ => (10, [])

def contentHasAuthTerm (content : String) : Bool :=
  ["jwt", "token", "auth", "login"].any fun t => strContains content.toLower t

def contentHasJwt (content : String) : Bool :=
  strContains content.toLower "jwt" || strContains content.toLower "jsonwebtoken"

def validate_authentication_consistency (handler_results : List (String × CoordResult))
    : ℚ × List CrossStackIssue :=
  let auth_patterns := handler_results.map fun (name, result) =>
    (name,
     result.code_files.any (fun f => contentHasAuthTerm f.2),
     result.code_files.any (fun f => contentHasJwt f.2))
  let auth_handlers := (auth_patterns.filter fun p => p.2.1).map Prod.fst
  if 0 < auth_handlers.length ∧ auth_handlers.length < handler_results.length then
    let missing_auth := (handler_results.map Prod.fst).filter fun h => h ∉ auth_handlers
    (max 0 ((10 : ℚ) - 2),
     [{ issue_type := "security_gap"
        severity := "critical"
        description := "Inconsistent authentication implementation. Missing in: " ++
          pyReprStrList missing_auth
        affected_handlers := missing_auth
        suggested_fix := "Implement consistent authentication across all handlers" }])
  else (10, [])

/-- The three security patterns of `_validate_input_sanitization`
(searched with `re.IGNORECASE`). -/
def sanitizationRx : List (List (List RTok)) :=
  [ [[RTok.lit "sanitize"], [RTok.lit "escape"], [RTok.lit "validate"],
     [RTok.lit "joi."], [RTok.lit "validator."]],
    [[RTok.lit "xss"], [RTok.lit "sql", RTok.dot0, RTok.lit "injection"],
     [RTok.lit "csrf"]],
    [[RTok.lit "helmet"], [RTok.lit "cors"],
     [RTok.lit "rate", RTok.dot0, RTok.lit "limit"]] ]

def validate_input_sanitization (handler_results : List (String × CoordResult))
    : ℚ × List CrossStackIssue :=
  let step := fun (acc : ℚ × List CrossStackIssue) (entry : String × CoordResult) =>
    let (handler_name, result) := entry
    let has_sanitization :=
      result.code_files.any fun f =>
        sanitizationRx.any fun rx => rxSearch rx f.2.toLower
    if !has_sanitization && (handler_name == "backend" || handler_name == "frontend") then
      (acc.1 - 3,
       acc.2 ++
         [{ issue_type := "security_gap"
            severity := "critical"
            description := "No input sanitization patterns found in " ++ handler_name
            affected_handlers := [handler_name]
            suggested_fix := "Add input validation and sanitization" }])
    else acc
  let (score, issues) := handler_results.foldl step (10, [])
  (max 0 score, issues)

def validate_authentication_security (handler_results : List (String × CoordResult))
    : ℚ × List CrossStackIssue :=
  match dictGet? "backend" handler_results with
  | some backend_result =>
    let has_bcrypt := backend_result.code_files.any fun f =>
      strContains f.2.toLower "bcrypt"
    let has_jwt := backend_result.code_files.any fun f => contentHasJwt f.2
    let has_rate_limit := backend_result.code_files.any fun f =>
      strContains f.2.toLower "rate" && strContains f.2.toLower "limit"
    let score : ℚ := 10
    let (score, issues) :=
      if !has_bcrypt then
        (score - 2,
         [{ issue_type := "security_gap"
            severity := "critical"
            description := "No password hashing (bcrypt) found in backend"
            affected_handlers := ["backend"]
            suggested_fix := "Implement bcrypt for password hashing" }])
      else (score, ([] : List CrossStackIssue))
    let (score, issues) :=
      if !has_jwt then
        (score - 2,
         issues ++
           [{ issue_type := "security_gap"
              severity := "critical"
              description := "No JWT implementation found in backend"
              affected_handlers := ["backend"]
              suggested_fix := "Implement JWT for authentication" }])
      else (score, issues)
    let (score, issues) :=
      if !has_rate_limit then
        (score - 1,
         issues ++
           [{ issue_type := "security_gap"
              severity := "warning"
              description := "No rate limiting found in backend"
              affected_handlers := ["backend"]
              suggested_fix := "Add rate limiting middleware" }])
      else (score, issues)
    (max 0 score, issues)
  | none => (10, [])

/-- The placeholder validators all return a fixed neutral score. -/
def placeholder_validator (_handler_results : List (String × CoordResult))
    : ℚ × List CrossStackIssue :=
  (8, [])

/-- `self.validation_rules`: rule name, weight, validators. -/
def validation_rules
    : List (String × ℚ × List (List (String × CoordResult) → ℚ × List CrossStackIssue)) :=
  [ ("contract_consistency", 3/10,
      [validate_api_consistency, validate_data_model_consistency,
       validate_authentication_consistency]),
    ("security_compliance", 1/4,
      [validate_input_sanitization, validate_authentication_security,
       placeholder_validator, placeholder_validator]),
    ("performance_standards", 1/5,
      [placeholder_validator, placeholder_validator, placeholder_validator]),
    ("code_quality", 3/20,
      [placeholder_validator, placeholder_validator, placeholder_validator]),
    ("maintainability", 1/10,
      [placeholder_validator, placeholder_validator, placeholder_validator]) ]

/-- `QualityReport`, minus the wall-clock fields (`metrics` duration and
the timestamp), which no verified property reads. -/
structure QualityReport where
  overall_score : ℚ
  handler_scores : List (String × ℚ)
  cross_stack_score : ℚ
  critical_issues : List String
  warnings : List String
  recommendations : List String
  refinement_cycles : Nat := 0
deriving Repr, DecidableEq

def assess_cross_stack_quality (handler_results : List (String × CoordResult))
    : QualityReport :=
  let handler_scores := handler_results.map fun (n, r) => (n, r.quality_score)
  let total_handler_score := (handler_scores.map Prod.snd).sum
  let average_handler_score : ℚ :=
    if handler_results.isEmpty then 0
    else total_handler_score / handler_results.length
  let ruleOutcomes := validation_rules.map fun rule =>
    let rule_name := rule.1
    let weight := rule.2.1
    let validators := rule.2.2
    let results := validators.map fun v => v handler_results
    let rule_score := (results.map Prod.fst).sum
    let rule_issues := results.foldl (fun acc r => acc ++ r.2) []
    let avg_rule_score := rule_score / (validators.length : ℚ)
    (rule_name, avg_rule_score * weight, rule_issues)
  let total_cross_stack_score := (ruleOutcomes.map fun o => o.2.1).sum
  let tagged := ruleOutcomes.foldl
    (fun acc o => acc ++ o.2.2.map fun i => (o.1 ++ ": " ++ i.description, i.severity)) []
  let cross_stack_score := total_cross_stack_score * 10
  { overall_score := average_handler_score * (6/10) + cross_stack_score * (4/10)
    handler_scores := handler_scores
    cross_stack_score := cross_stack_score
    critical_issues := (tagged.filter fun t => t.2 == "critical").map Prod.fst
    warnings := (tagged.filter fun t => t.2 == "warning").map Prod.fst
    recommendations :=
      (tagged.filter fun t => !(t.2 == "critical") && !(t.2 == "warning")).map Prod.fst }

/-! ## Response parsing (`_parse_node_response`, node handler)

`json.loads` is embedded by a recursive-descent parser that accepts
exactly the JSON objects whose members are string/string pairs
(duplicate keys keep the last value, as `json.loads` does).  A response
that is valid JSON of any *other* shape fails the handler's
`isinstance`/`all` structure check and is routed to the fallback — the
same outcome the embedding produces by rejecting it, so collapsing
"invalid JSON" and "valid JSON of the wrong shape" into `none` is
behaviour-preserving.  (`\uXXXX` escapes decode as single code points;
surrogate-pair recombination is not modelled.) -/

def isJsonWs (c : Char) : Bool :=
  c = ' ' || c = '\t' || c = '\n' || c = '\r'

def skipJsonWs (cs : List Char) : List Char :=
  cs.dropWhile isJsonWs

def hexVal? (c : Char) : Option Nat :=
  if '0' ≤ c ∧ c ≤ '9' then some (c.toNat - '0'.toNat)
  else if 'a' ≤ c ∧ c ≤ 'f' then some (c.toNat - 'a'.toNat + 10)
  else if 'A' ≤ c ∧ c ≤ 'F' then some (c.toNat - 'A'.toNat + 10)
  else none

/-- Parse the body of a JSON string (the opening quote already
consumed); returns the decoded characters and the remainder after the
closing quote.  `fuel` bounds the recursion; every step consumes at
least one character, so `cs.length + 1` is always sufficient. -/
def parseJString (fuel : Nat) (cs : List Char) : Option (List Char × List Char) :=
  match fuel, cs with
  | 0, _ => none
  | _, [] => none
  | fuel + 1, c :: rest =>
    if c = '"' then some ([], rest)
    else if c = '\\' then
      match rest with
      | [] => none
      | e :: rest2 =>
        if e = '"' then (parseJString fuel rest2).map fun p => ('"' :: p.1, p.2)
        else if e = '\\' then (parseJString fuel rest2).map fun p => ('\\' :: p.1, p.2)
        else if e = '/' then (parseJString fuel rest2).map fun p => ('/' :: p.1, p.2)
        else if e = 'b' then (parseJString fuel rest2).map fun p => ('\x08' :: p.1, p.2)
        else if e = 'f' then (parseJString fuel rest2).map fun p => ('\x0c' :: p.1, p.2)
        else if e = 'n' then (parseJString fuel rest2).map fun p => ('\n' :: p.1, p.2)
        else if e = 'r' then (parseJString fuel rest2).map fun p => ('\r' :: p.1, p.2)
        else if e = 't' then (parseJString fuel rest2).map fun p => ('\t' :: p.1, p.2)
        else if e = 'u' then
          match rest2 with
          | h1 :: h2 :: h3 :: h4 :: rest3 =>
            match hexVal? h1, hexVal? h2, hexVal? h3, hexVal? h4 with
            | some a, some b, some c3, some d =>
              (parseJString fuel rest3).map fun p =>
                (Char.ofNat (a * 4096 + b * 256 + c3 * 16 + d) :: p.1, p.2)
            | _, _, _, _ => none
          | _ => none
        else none
    else if c.toNat < 32 then none
    else (parseJString fuel rest).map fun p => (c :: p.1, p.2)

/-- Parse the members of the object (after the opening brace, first
member known to be present), consuming the closing brace. -/
def parseMembers (fuel : Nat) (acc : List (String × String)) (cs : List Char)
    : Option (List (String × String) × List Char) :=
  match fuel with
  | 0 => none
  | fuel + 1 =>
    match skipJsonWs cs with
    | '"' :: rest =>
      match parseJString (rest.length + 1) rest with
      | some (key, rest1) =>
        match skipJsonWs rest1 with
        | ':' :: rest2 =>
          match skipJsonWs rest2 with
          | '"' :: rest3 =>
            match parseJString (rest3.length + 1) rest3 with
            | some (val, rest4) =>
              let acc := dictInsert (String.mk key) (String.mk val) acc
              match skipJsonWs rest4 with
              | ',' :: rest5 => parseMembers fuel acc rest5
              | '\x7d' :: rest5 => some (acc, rest5)
              | _ => none
            | none => none
          | _ => none
        | _ => none
      | none => none
    | _ => none

/-- `json.loads` restricted to flat string-to-string objects; `none`
covers both a JSON syntax error and a valid payload of another shape
(both route to the fallback in `_parse_node_response`). -/
def jsonFileMap? (s : String) : Option (List (String × String)) :=
  let cs := skipJsonWs s.toList
  match cs with
  | '\x7b' :: rest =>
    match skipJsonWs rest with
    | '\x7d' :: rest2 => if (skipJsonWs rest2).isEmpty then some [] else none
    | _ =>
      match parseMembers (rest.length + 1) [] rest with
      | some (d, rest2) => if (skipJsonWs rest2).isEmpty then some d else none
      | none => none
  | _ => none

/-- `response_clean[start_idx:end_idx]` for
`start_idx = find('\x7b')`, `end_idx = rfind('\x7d') + 1`, guarded by
`start_idx != -1 and end_idx > start_idx`. -/
def json_candidate? (response_clean : String) : Option String :=
  let cs := response_clean.toList
  match cs.indexOf? '\x7b', (cs.reverse.indexOf? '\x7d').map (fun i => cs.length - 1 - i) with
  | some s, some e =>
    if s < e + 1 then some (String.mk ((cs.drop s).take (e + 1 - s))) else none
  | _, _ => none

def generate_basic_app_file : String :=
  "const express = require(\x27express\x27);\nconst cors = require(\x27cors\x27);\nconst helmet = require(\x27helmet\x27);\n\nconst app = express();\n\n// Security middleware\napp.use(helmet());\napp.use(cors());\n\n// Body parsing middleware\napp.use(express.json(\x7b limit: \x2710mb\x27 \x7d));\napp.use(express.urlencoded(\x7b extended: true \x7d));\n\n// Health check endpoint\napp.get(\x27/health\x27, (req, res) => \x7b\n  res.json(\x7b status: \x27healthy\x27, timestamp: new Date().toISOString() \x7d);\n\x7d);\n\n// Error handling middleware\napp.use((err, req, res, next) => \x7b\n  console.error(err.stack);\n  res.status(500).json(\x7b error: \x27Something went wrong!\x27 \x7d);\n\x7d);\n\nmodule.exports = app;"

def generate_basic_server_file : String :=
  "const app = require(\x27./app\x27);\nconst PORT = process.env.PORT || 3000;\n\nconst server = app.listen(PORT, () => \x7b\n  console.log(`Server running on port $\x7bPORT\x7d`);\n\x7d);\n\n// Graceful shutdown\nprocess.on(\x27SIGTERM\x27, () => \x7b\n  console.log(\x27SIGTERM received, shutting down gracefully\x27);\n  server.close(() => \x7b\n    console.log(\x27Process terminated\x27);\n  \x7d);\n\x7d);"

def generate_basic_package_json : String :=
  "\x7b\n  \"name\": \"generated-backend\",\n  \"version\": \"1.0.0\",\n  \"description\": \"Generated Node.js backend application\",\n  \"main\": \"src/server.js\",\n  \"scripts\": \x7b\n    \"start\": \"node src/server.js\",\n    \"dev\": \"nodemon src/server.js\",\n    \"test\": \"jest\"\n  \x7d,\n  \"dependencies\": \x7b\n    \"express\": \"^4.18.2\",\n    \"cors\": \"^2.8.5\",\n    \"helmet\": \"^7.0.0\",\n    \"joi\": \"^17.9.2\",\n    \"bcryptjs\": \"^2.4.3\",\n    \"jsonwebtoken\": \"^9.0.2\",\n    \"winston\": \"^3.10.0\"\n  \x7d,\n  \"devDependencies\": \x7b\n    \"nodemon\": \"^3.0.1\",\n    \"jest\": \"^29.6.2\"\n  \x7d\n\x7d"

/-- `_extract_code_blocks_fallback`.  The regex sweep over the response
(file-path headers followed by code bodies, filtered to paths with a
recognised extension and bodies longer than 50 characters) is a
best-effort text heuristic — spec §4.3/§9 direct that it be treated as
an explicitly fallible classifier, so it enters the embedding as the
abstract parameter `fileBlockMatches`, the dictionary of matches it
extracts.  The surrounding logic is concrete: when the sweep finds
nothing, the fixed hand-authored skeleton is returned. -/
def extract_code_blocks_fallback (fileBlockMatches : String → List (String × String))
    (response : String) : List (String × String) :=
  let code_files := fileBlockMatches response
  if code_files.isEmpty then
    [("src/app.js", generate_basic_app_file),
     ("src/server.js", generate_basic_server_file),
     ("package.json", generate_basic_package_json)]
  else code_files

def parse_node_response (fileBlockMatches : String → List (String × String))
    (response : String) : List (String × String) :=
  let response_clean := pyStrip response
  match json_candidate? response_clean with
  | some json_content =>
    match jsonFileMap? json_content with
    | some parsed => parsed
    | none => extract_code_blocks_fallback fileBlockMatches response
  | none => extract_code_blocks_fallback fileBlockMatches response

/-! ## Node quality validation (`_validate_code_quality`, node handler) -/

def errorHandlingRx : List (List RTok) :=
  [[RTok.lit "try", RTok.ws0, RTok.lit "\x7b"],
   [RTok.lit "catch", RTok.ws0, RTok.lit "("],
   [RTok.lit ".catch("], [RTok.lit "next("],
   [RTok.lit "throw", RTok.ws1, RTok.lit "new"]]

def validationRx : List (List RTok) :=
  [[RTok.lit "joi."], [RTok.lit "validator."], [RTok.lit "validate("],
   [RTok.lit "schema."]]

def securityRx : List (List RTok) :=
  [[RTok.lit "helmet"], [RTok.lit "cors"], [RTok.lit "sanitize"],
   [RTok.lit "escape"], [RTok.lit "bcrypt"], [RTok.lit "jwt"]]

def loggingRx : List (List RTok) :=
  [[RTok.lit "logger."], [RTok.lit "console."], [RTok.lit "winston"],
   [RTok.lit "log("]]

def asyncAwaitRx : List (List RTok) :=
  [[RTok.lit "async", RTok.ws1, RTok.lit "function"], [RTok.lit "await", RTok.ws1]]

def middlewareRx : List (List RTok) :=
  [[RTok.lit ".use("], [RTok.lit "middleware"], [RTok.lit "next()"]]

def statusCodesRx : List (List RTok) :=
  [[RTok.lit ".status("], [RTok.lit "res.json"], [RTok.lit "res.send"]]

structure FileQuality where
  score : ℚ
  issues : List String
  file_path : String
deriving Repr, DecidableEq

/-- One scored check of `_validate_single_file_quality`: when `cond`
holds, subtract `penalty` and append the issue string. -/
def applyDeduction (cond : Bool) (penalty : ℚ) (msg : String) (acc : ℚ × List String)
    : ℚ × List String :=
  if cond then (acc.1 - penalty, acc.2 ++ [msg]) else acc

def validate_single_file_quality (file_path content : String) : FileQuality :=
  if file_path.endsWith ".sql" || file_path.endsWith ".env.example" then
    { score := 10, issues := [], file_path := file_path }
  else
    let fl := file_path.toLower
    let acc : ℚ × List String := (10, [])
    let acc := applyDeduction (!rxSearch errorHandlingRx content) 2
      ("CRITICAL: No error handling in " ++ file_path) acc
    let acc := applyDeduction
      ((strContains fl "controller" || strContains fl "route") &&
        !rxSearch validationRx content) (3/2)
      ("CRITICAL: No input validation in " ++ file_path) acc
    let acc := applyDeduction
      ((strContains fl "auth" || strContains fl "security") &&
        !rxSearch securityRx content) (3/2)
      ("CRITICAL: Missing security patterns in " ++ file_path) acc
    let acc := applyDeduction
      (!rxSearch asyncAwaitRx content && !strContains fl "config") 1
      ("Missing async/await patterns in " ++ file_path) acc
    let acc := applyDeduction (!rxSearch loggingRx content) (1/2)
      ("Missing logging in " ++ file_path) acc
    let acc := applyDeduction
      (strContains fl "controller" && !rxSearch statusCodesRx content) 1
      ("Missing proper HTTP responses in " ++ file_path) acc
    let acc := applyDeduction
      ((strContains file_path "app.js" || strContains file_path "server.js") &&
        !rxSearch middlewareRx content) 1
      ("Missing middleware setup in " ++ file_path) acc
    let acc := applyDeduction ((pyStrip content).length < 100) 3
      ("CRITICAL: File too short/incomplete " ++ file_path) acc
    let acc := applyDeduction
      (pyCountChar content '\x7b' ≠ pyCountChar content '\x7d') 2
      ("CRITICAL: Bracket mismatch in " ++ file_path) acc
    { score := max 0 acc.1, issues := acc.2, file_path := file_path }

structure NodeQualityReport where
  overall_score : ℚ
  file_scores : List (String × FileQuality)
  issues : List String
  total_files : Nat
  files_above_8 : Nat
  critical_issues : Nat
deriving Repr, DecidableEq

def validate_code_quality (code_files : List (String × String)) : NodeQualityReport :=
  let file_scores := code_files.map fun f => (f.1, validate_single_file_quality f.1 f.2)
  let total_score := (file_scores.map fun p => p.2.score).sum
  let issues := file_scores.foldl (fun acc p => acc ++ p.2.issues) []
  { overall_score :=
      if code_files.isEmpty then 0 else total_score / (code_files.length : ℚ)
    file_scores := file_scores
    issues := issues
    total_files := code_files.length
    files_above_8 := (file_scores.filter fun p => decide (8 ≤ p.2.score)).length
    critical_issues := (issues.filter fun i => i.startsWith "CRITICAL").length }

/-! ## Context-chunk optimisation (`_optimize_chunks_for_tokens`) -/

structure ContextChunk where
  chunk_id : String
  chunk_type : String
  content : String
  priority : Int
  tokens_estimate : Int
  created_at : String := ""
deriving Repr, DecidableEq

/-- Stable insertion into a priority-ascending list (the element goes
after every element of smaller-or-equal priority). -/
def insSortedByPriority (a : ContextChunk) : List ContextChunk → List ContextChunk
  | [] => [a]
  | b :: bs =>
    if b.priority ≤ a.priority then b :: insSortedByPriority a bs else a :: b :: bs

/-- `chunks.sort(key=lambda x: x.priority)`: Python list sort is
stable, and the stable sort by a key is unique, so stable insertion
sort reproduces it. -/
def stableSortByPriority (l : List ContextChunk) : List ContextChunk :=
  l.foldl (fun acc a => insSortedByPriority a acc) []

def max_tokens_per_request : Int := 150000

/-- The greedy retention loop.  A chunk that fits the remaining budget
is kept; the first priority-1 chunk that does not fit is truncated to
the remaining budget and the loop `break`s (dropping everything after
it); a non-priority-1 chunk that does not fit is skipped and the loop
continues. -/
def optimizeLoop (maxT : Int) : List ContextChunk → Int → List ContextChunk
  | [], _ => []
  | c :: rest, current_tokens =>
    if current_tokens + c.tokens_estimate ≤ maxT then
      c :: optimizeLoop maxT rest (current_tokens + c.tokens_estimate)
    else if c.priority = 1 then
      let truncated := c.content.take ((maxT - current_tokens) * 4).toNat ++
        "\n... [TRUNCATED FOR TOKEN LIMIT]"
      [{ c with content := truncated,
                tokens_estimate := ((truncated.length / 4 : Nat) : Int) }]
    else optimizeLoop maxT rest current_tokens

def optimize_chunks_for_tokens (maxT : Int) (chunks : List ContextChunk)
    : List ContextChunk :=
  let sorted := stableSortByPriority chunks
  let total_tokens := (sorted.map ContextChunk.tokens_estimate).sum
  if total_tokens ≤ maxT then sorted else optimizeLoop maxT sorted 0

/-! ## The per-component refinement pipeline
(`base_handler.generate_code` / `node_handler`)

The oracle (`claude_client.messages.create`) is the environment: it is
embedded as a function from the invocation counter to either a response
text or a raised error message.  Prompt texts feed only the oracle, so
under this model `_prepare_context_chunks`, `_build_expert_prompt` and
`_build_improvement_prompt` are dead data and are not re-evaluated
inside the pipeline (the chunk optimizer itself is embedded above).
Contract extraction from generated text (`_extract_node_contracts`) is
the regex classifier that spec §4.3/§9 direct to treat as an explicitly
fallible best-effort step; it enters as an abstract parameter.
Events are recorded by type, which is all the verified properties
consume. -/

structure RouteDecl where
  method : String
  path : String
  file : String
  features : List String
  authentication_required : Bool
  validation : Bool
deriving Repr, DecidableEq

structure ModelDecl where
  name : String
  file : String
  features : List String
deriving Repr, DecidableEq

structure ServiceDecl where
  name : String
  file : String
  features : List String
deriving Repr, DecidableEq

structure NodeContracts where
  api_endpoints : List RouteDecl := []
  models_created : List ModelDecl := []
  services_created : List ServiceDecl := []
  middleware_created : List String := []
deriving Repr, DecidableEq

structure HandlerResult where
  success : Bool
  handler_type : String
  features_implemented : List String
  code_files : List (String × String)
  contracts : NodeContracts := {}
  quality_score : ℚ
  tokens_used : Nat := 0
  generation_time : ℚ := 0
  error_message : Option String := none
  refinement_cycles : Nat := 0
deriving Repr, DecidableEq

structure HistoryEntry where
  features : List String
  quality_score : ℚ
  patterns_used : List String
  contracts : NodeContracts
deriving Repr, DecidableEq

structure GenState where
  oracle_calls : Nat := 0
  registry : RegistryState := {}
  events : List String := []
  generation_history : List HistoryEntry := []
deriving Repr, DecidableEq

def publish_handler_event (event_type : String) (st : GenState) : GenState :=
  { st with events := st.events ++ [event_type] }

/-- `"overloaded" in str(e) or "rate_limit" in str(e)`. -/
def transientError (e : String) : Bool :=
  strContains e "overloaded" || strContains e "rate_limit"

def max_retries : Nat := 3

/-- The attempt loop of `_claude_request_with_retry`: a transient
failure is always retried; a non-transient failure is re-raised on the
last attempt and (merely logged, hence) retried otherwise; exhausting
the attempts raises the fixed message. -/
def claude_request_go (oracle : Nat → Except String String) (maxR : Nat)
    : Nat → GenState → Except String String × GenState
  | attempt, st =>
    if h : attempt < maxR then
      let r := oracle st.oracle_calls
      let st1 := { st with oracle_calls := st.oracle_calls + 1 }
      match r with
      | Except.ok response => (Except.ok response, st1)
      | Except.error e =>
        if !transientError e && attempt = maxR - 1 then (Except.error e, st1)
        else claude_request_go oracle maxR (attempt + 1) st1
    else (Except.error "Max retries exceeded for Claude API", st)
termination_by attempt _ => maxR - attempt

def claude_request_with_retry (oracle : Nat → Except String String) (st : GenState)
    : Except String String × GenState :=
  claude_request_go oracle max_retries 0 st

def register_api_contracts (features : List String) (contracts : NodeContracts)
    (reg : RegistryState) : RegistryState :=
  features.foldl
    (fun reg feature =>
      let feature_endpoints :=
        (contracts.api_endpoints.filter fun ep => ep.features.contains feature).map
          fun ep =>
            { method := ep.method, path := ep.path,
              authentication_required := ep.authentication_required,
              description := feature ++ " endpoint" : APIEndpoint }
      let feature_models :=
        (contracts.models_created.filter fun m => m.features.contains feature).map
          fun m => { name := m.name, table_name := m.name.toLower ++ "s" : DataModel }
      if feature_endpoints.isEmpty && feature_models.isEmpty then reg
      else
        register_feature_contract reg
          { feature_name := feature, endpoints := feature_endpoints,
            models := feature_models, created_by := "node_backend" })
    reg

def node_generate_with_chunked_context
    (fileBlockMatches : String → List (String × String))
    (extract_node_contracts : List (String × String) → List String → NodeContracts)
    (oracle : Nat → Except String String) (hasClient : Bool)
    (features : List String) (st : GenState)
    : Except String HandlerResult × GenState :=
  if !hasClient then (Except.error "Claude client not initialized", st)
  else
    match claude_request_with_retry oracle st with
    | (Except.error e, st1) => (Except.error e, st1)
    | (Except.ok response_text, st1) =>
      let parsed_code := parse_node_response fileBlockMatches response_text
      let quality_report := validate_code_quality parsed_code
      let contracts := extract_node_contracts parsed_code features
      let st2 :=
        { st1 with registry := register_api_contracts features contracts st1.registry }
      (Except.ok
        { success := true, handler_type := "node_backend",
          features_implemented := features, code_files := parsed_code,
          contracts := contracts, quality_score := quality_report.overall_score },
       st2)

/-- `_apply_improvements`: a failed oracle call is caught and the
current result is returned unchanged; a successful call merges the
parsed files over the current ones and re-validates. -/
def apply_improvements
    (fileBlockMatches : String → List (String × String))
    (extract_node_contracts : List (String × String) → List String → NodeContracts)
    (oracle : Nat → Except String String)
    (current_result : HandlerResult) (st : GenState) : HandlerResult × GenState :=
  match claude_request_with_retry oracle st with
  | (Except.error _, st1) => (current_result, st1)
  | (Except.ok response_text, st1) =>
    let improved_code := parse_node_response fileBlockMatches response_text
    let final_code := dictUpdate current_result.code_files improved_code
    let quality_report := validate_code_quality final_code
    let contracts := extract_node_contracts final_code current_result.features_implemented
    ({ success := true, handler_type := "node_backend",
       features_implemented := current_result.features_implemented,
       code_files := final_code, contracts := contracts,
       quality_score := quality_report.overall_score,
       tokens_used := current_result.tokens_used,
       refinement_cycles := current_result.refinement_cycles },
     st1)

def max_refinement_cycles : Nat := 5

/-- The `while` loop of `_refine_until_quality_met`. -/
def refine_loop
    (fileBlockMatches : String → List (String × String))
    (extract_node_contracts : List (String × String) → List String → NodeContracts)
    (oracle : Nat → Except String String) (quality_target : ℚ) (max_cycles : Nat)
    : Nat → HandlerResult → GenState → HandlerResult × GenState
  | cycle, current_result, st =>
    if h : current_result.quality_score < quality_target ∧ cycle < max_cycles then
      let (improved, st1) :=
        apply_improvements fileBlockMatches extract_node_contracts oracle
          current_result st
      let current1 := { improved with refinement_cycles := cycle + 1 }
      let st2 := publish_handler_event "refinement_cycle_completed" st1
      refine_loop fileBlockMatches extract_node_contracts oracle quality_target
        max_cycles (cycle + 1) current1 st2
    else (current_result, st)
termination_by cycle _ _ => max_cycles - cycle

def refine_until_quality_met
    (fileBlockMatches : String → List (String × String))
    (extract_node_contracts : List (String × String) → List String → NodeContracts)
    (oracle : Nat → Except String String)
    (initial_result : HandlerResult) (quality_target : ℚ) (st : GenState)
    : HandlerResult × GenState :=
  refine_loop fileBlockMatches extract_node_contracts oracle quality_target
    max_refinement_cycles 0 initial_result st

/-- `_finalize_generation`: append the compact history record and
publish the completion event (`f"{handler_type}_generation_completed"`;
`_extract_patterns_used` returns `[]` in the base class and the node
handler does not override it). -/
def finalize_generation (result : HandlerResult) (st : GenState) : GenState :=
  let st :=
    { st with
      generation_history := st.generation_history ++
        [{ features := result.features_implemented,
           quality_score := result.quality_score,
           patterns_used := [], contracts := result.contracts }] }
  publish_handler_event "node_backend_generation_completed" st

/-- `generate_code` (base handler): initial generation, refinement when
below target, finalization; an exception escaping the `try` block —
which under this model can only originate from the initial oracle
invocation (or a missing client) — publishes the failure event and
returns the failure result. -/
def generate_code
    (fileBlockMatches : String → List (String × String))
    (extract_node_contracts : List (String × String) → List String → NodeContracts)
    (oracle : Nat → Except String String) (hasClient : Bool)
    (features : List String) (quality_target : ℚ) (st : GenState)
    : HandlerResult × GenState :=
  match node_generate_with_chunked_context fileBlockMatches extract_node_contracts
      oracle hasClient features st with
  | (Except.error e, st1) =>
    let st2 := publish_handler_event "handler_generation_failed" st1
    ({ success := false, handler_type := "node_backend",
       features_implemented := [], code_files := [], contracts := {},
       quality_score := 0, error_message := some e }, st2)
  | (Except.ok initial_result, st1) =>
    let (refined_result, st2) :=
      if initial_result.quality_score < quality_target then
        refine_until_quality_met fileBlockMatches extract_node_contracts oracle
          initial_result quality_target st1
      else (initial_result, st1)
    let st3 := finalize_generation refined_result st2
    (refined_result, st3)

/-! ## Concrete fixtures used by the theorems -/

/-- Instantiation of the abstract fallback heuristic that extracts no
file blocks (the inputs it is used on either never reach the fallback
or exercise the hand-authored skeleton). -/
def noBlocks : String → List (String × String) := fun _ => []

/-- Instantiation of the abstract contract extractor that recognises
nothing (its output is never consumed by the verified properties). -/
def noContracts : List (String × String) → List String → NodeContracts := fun _ _ => {}

/-- Oracle whose first invocation succeeds with an empty JSON object
and whose later (improvement-cycle) invocations all raise a
non-transient error. -/
def oracleImpFail : Nat → Except String String :=
  fun n => if n = 0 then Except.ok "\x7b\x7d" else Except.error "oracle down"

/-- Oracle that always raises a non-transient error. -/
def oracleFail : Nat → Except String String := fun _ => Except.error "boom"

/-- Oracle that always returns the same fixed response. -/
def oracleFixed : Nat → Except String String := fun _ => Except.ok "\x7b\x7d"

/-- Registry after registering feature `A` depending on `B` and feature
`B` depending back on `A`. -/
def fixtureRegAB : RegistryState :=
  register_feature_contract
    (register_feature_contract emptyRegistry
      { feature_name := "A", endpoints := [], models := [], dependencies := ["B"] })
    { feature_name := "B", endpoints := [], models := [], dependencies := ["A"] }

/-- Registry after registering the diamond
`A -> \x7bB, C\x7d`, `B -> \x7bD\x7d`, `C -> \x7bD\x7d`. -/
def fixtureRegDiamond : RegistryState :=
  [ { feature_name := "A", endpoints := [], models := [], dependencies := ["B", "C"] },
    { feature_name := "B", endpoints := [], models := [], dependencies := ["D"] },
    { feature_name := "C", endpoints := [], models := [], dependencies := ["D"] },
    ({ feature_name := "D", endpoints := [], models := [] } : FeatureContract)
  ].foldl register_feature_contract emptyRegistry

def fixtureEpGX : APIEndpoint := { method := "GET", path := "/x" }

/-- Two contracts for distinct features each declaring the same
`GET /x` endpoint. -/
def fixtureC2Contracts : List FeatureContract :=
  [ { feature_name := "f1", endpoints := [fixtureEpGX], models := [] },
    { feature_name := "f2", endpoints := [fixtureEpGX], models := [] } ]

/-- Handler results for C6: the backend declares exactly
`GET /api/users`; the frontend's only declared call target is
`/api/other`. -/
def fixtureC6Results : List (String × CoordResult) :=
  [("backend",
    { contracts := { api_endpoints := [{ method := "GET", path := "/api/users" }] } }),
   ("frontend",
    { contracts := { api_calls := [{ endpoint := "/api/other" }] } })]

/-- A priority-1 chunk whose token estimate alone exceeds the budget. -/
def fixtureChunkA : ContextChunk :=
  { chunk_id := "a", chunk_type := "architecture", content := "A", priority := 1,
    tokens_estimate := 150001 }

/-- A small priority-1 chunk listed after `fixtureChunkA`. -/
def fixtureChunkB : ContextChunk :=
  { chunk_id := "b", chunk_type := "contracts", content := "B", priority := 1,
    tokens_estimate := 1 }

def fixtureChunkSmall1 : ContextChunk :=
  { chunk_id := "s1", chunk_type := "architecture", content := "x", priority := 1,
    tokens_estimate := 100 }

def fixtureChunkBig2 : ContextChunk :=
  { chunk_id := "big", chunk_type := "previous_code", content := "y", priority := 2,
    tokens_estimate := 200000 }

def fixtureChunkSmall1b : ContextChunk :=
  { chunk_id := "s2", chunk_type := "feature_spec", content := "z", priority := 1,
    tokens_estimate := 50 }

/-! ## Theorems -/

/-- C1: the coordinator's assessment does NOT produce a cross-stack
score equal to the weighted sum of the five category means inside
[0,10]: `_assess_cross_stack_quality` multiplies the already-0-to-10
weighted sum by 10 (`total_cross_stack_score * 10`, against its own
"Convert to 0-10 scale" comment), so on the empty handler-results map
the weighted sum of the category means is 8.85 while the reported
cross-stack score is 88.5 and the reported overall score is
0.6 * 0 + 0.4 * 88.5 = 35.4, both outside [0,10]. -/
theorem c1_cross_stack_score_out_of_range :
    (assess_cross_stack_quality []).cross_stack_score = 177/2 ∧
    (assess_cross_stack_quality []).overall_score = 177/5 ∧
    ¬(assess_cross_stack_quality []).cross_stack_score ≤ 10 ∧
    ¬(assess_cross_stack_quality []).overall_score ≤ 10 := by
  with_unfolding_all decide

/-- C6: on a backend declaring exactly `GET /api/users` and a frontend
whose only call target is `/api/other`, the API-consistency checker
produces exactly one critical issue, referencing `/api/other`, and
exactly one warning issue, referencing `GET /api/users`. -/
theorem c6_api_consistency_issue_pair :
    ((validate_api_consistency fixtureC6Results).2.filter
        (fun i => i.severity == "critical")).map
      (fun i => strContains i.description "/api/other") = [true] ∧
    ((validate_api_consistency fixtureC6Results).2.filter
        (fun i => i.severity == "warning")).map
      (fun i => strContains i.description "GET /api/users") = [true] := by
  decide

/-- C2 counterexample: registering two feature contracts that both
declare `GET /x` (two endpoints in total) leaves `all_endpoints()` with
a single entry — the `"METHOD path"` dict index deduplicates, so the
returned length is not the sum of the registered endpoint-list
lengths. -/
theorem c2_counterexample_dedup :
    (fixtureC2Contracts.map fun c => c.endpoints.length).sum = 2 ∧
    (get_all_endpoints
        (fixtureC2Contracts.foldl register_feature_contract emptyRegistry)).length
      = 1 := by
  decide

/-- C8 counterexample: a single-file map whose only file is `m.sql`
with brace-mismatched content receives a perfect score and no issue at
all — `_validate_single_file_quality` returns early for `.sql` and
`.env.example` paths, skipping the brace floor. -/
theorem c8_counterexample_sql_skipped :
    pyCountChar "\x7b" '\x7b' ≠ pyCountChar "\x7b" '\x7d' ∧
    validate_single_file_quality "m.sql" "\x7b" =
      { score := 10, issues := [], file_path := "m.sql" } := by
  with_unfolding_all decide

/-- C9 counterexample: the oracle response `"\x7b\x7d"` parses as a
valid empty JSON object and is returned as-is, so the response-parsing
stage yields an empty file map (no fallback is consulted). -/
theorem c9_counterexample_empty_object :
    parse_node_response noBlocks "\x7b\x7d" = [] := by
  decide

/-! ### Dictionary lemmas -/

theorem dictKeys_dictInsert (k : String) (v : α) (d : List (String × α)) :
    dictKeys (dictInsert k v d) =
      if k ∈ dictKeys d then dictKeys d else dictKeys d ++ [k] := by
  induction d with
  | nil => simp [dictInsert, dictKeys]
  | cons p rest ih =>
    obtain ⟨k₀, v₀⟩ := p
    by_cases hk : k₀ = k
    · subst hk
      simp [dictInsert, dictKeys]
    · have hne : ¬k = k₀ := fun h => hk h.symm
      simp only [dictInsert, dictKeys, List.map_cons, if_neg hk, List.mem_cons]
      rw [show (dictKeys (dictInsert k v rest) : List String) =
            List.map Prod.fst (dictInsert k v rest) from rfl] at *
      by_cases hm : k ∈ dictKeys rest
      · simp only [dictKeys] at hm ih
        simp [ih, hm, hne]
      · simp only [dictKeys] at hm ih
        simp [ih, hm, hne]

theorem mem_dictKeys_dictInsert (a k : String) (v : α) (d : List (String × α)) :
    a ∈ dictKeys (dictInsert k v d) ↔ a ∈ dictKeys d ∨ a = k := by
  rw [dictKeys_dictInsert]
  by_cases hm : k ∈ dictKeys d
  · rw [if_pos hm]
    constructor
    · exact Or.inl
    · rintro (h | rfl)
      · exact h
      · exact hm
  · rw [if_neg hm]
    simp

theorem dictKeys_nil : dictKeys ([] : List (String × α)) = [] := rfl

theorem dictKeys_cons (p : String × α) (d : List (String × α)) :
    dictKeys (p :: d) = p.1 :: dictKeys d := rfl

theorem nodup_dictKeys_dictInsert (k : String) (v : α) (d : List (String × α))
    (h : (dictKeys d).Nodup) : (dictKeys (dictInsert k v d)).Nodup := by
  rw [dictKeys_dictInsert]
  by_cases hm : k ∈ dictKeys d
  · rwa [if_pos hm]
  · rw [if_neg hm, List.nodup_append]
    refine ⟨h, List.nodup_singleton k, ?_⟩
    intro a ha hb
    rw [List.mem_singleton] at hb
    subst hb
    exact hm ha

theorem dictGet?_dictInsert_self (k : String) (v : α) (d : List (String × α)) :
    dictGet? k (dictInsert k v d) = some v := by
  induction d with
  | nil => simp [dictInsert, dictGet?]
  | cons p rest ih =>
    obtain ⟨k₀, v₀⟩ := p
    by_cases hk : k₀ = k
    · subst hk; simp [dictInsert, dictGet?]
    · simp [dictInsert, dictGet?, hk, ih]

theorem dictGet?_dictInsert_ne (a k : String) (v : α) (d : List (String × α))
    (h : ¬a = k) : dictGet? a (dictInsert k v d) = dictGet? a d := by
  have hka : ¬k = a := fun hh => h hh.symm
  induction d with
  | nil => simp [dictInsert, dictGet?, hka]
  | cons p rest ih =>
    obtain ⟨k₀, v₀⟩ := p
    by_cases hk : k₀ = k
    · subst hk
      simp [dictInsert, dictGet?, hka]
    · simp [dictInsert, dictGet?, hk, ih]

theorem mem_dictKeys_of_dictGet? {k : String} {v : α} {d : List (String × α)}
    (h : dictGet? k d = some v) : k ∈ dictKeys d := by
  induction d with
  | nil => simp [dictGet?] at h
  | cons p rest ih =>
    obtain ⟨k₀, v₀⟩ := p
    rw [dictKeys_cons, List.mem_cons]
    by_cases hk : k₀ = k
    · exact Or.inl hk.symm
    · simp only [dictGet?, if_neg hk] at h
      exact Or.inr (ih h)

theorem dictGet?_eq_some_of_mem {k : String} {v : α} {d : List (String × α)}
    (hd : (dictKeys d).Nodup) (hm : (k, v) ∈ d) : dictGet? k d = some v := by
  induction d with
  | nil => simp at hm
  | cons p rest ih =>
    obtain ⟨k₀, v₀⟩ := p
    rw [dictKeys_cons, List.nodup_cons] at hd
    rcases List.mem_cons.mp hm with h | h
    · rw [← h]
      simp [dictGet?]
    · by_cases hk : k₀ = k
      · exfalso
        subst hk
        apply hd.1
        rw [show (k₀, v₀).1 = k₀ from rfl] at *
        exact List.mem_map.mpr ⟨(k₀, v), h, rfl⟩
      · simp only [dictGet?, if_neg hk]
        exact ih hd.2 h

/-! ### C2: `all_endpoints` counts distinct endpoint keys -/

theorem mem_keys_endpointFold (eps : List APIEndpoint) (d : List (String × APIEndpoint))
    (a : String) :
    a ∈ dictKeys (eps.foldl (fun acc ep => dictInsert (endpointKey ep) ep acc) d) ↔
      a ∈ dictKeys d ∨ a ∈ eps.map endpointKey := by
  induction eps generalizing d with
  | nil => simp
  | cons ep rest ih =>
    simp only [List.foldl_cons, List.map_cons, List.mem_cons]
    rw [ih, mem_dictKeys_dictInsert]
    tauto

theorem nodup_keys_endpointFold (eps : List APIEndpoint) (d : List (String × APIEndpoint))
    (h : (dictKeys d).Nodup) :
    (dictKeys (eps.foldl (fun acc ep => dictInsert (endpointKey ep) ep acc) d)).Nodup := by
  induction eps generalizing d with
  | nil => exact h
  | cons ep rest ih =>
    exact ih _ (nodup_dictKeys_dictInsert _ _ _ h)

theorem endpoint_registry_register (st : RegistryState) (c : FeatureContract) :
    (register_feature_contract st c).endpoint_registry =
      c.endpoints.foldl (fun acc ep => dictInsert (endpointKey ep) ep acc)
        st.endpoint_registry := by
  simp only [register_feature_contract]
  split <;> rfl

theorem mem_keys_registerAll (cs : List FeatureContract) (st : RegistryState)
    (a : String) :
    a ∈ dictKeys (cs.foldl register_feature_contract st).endpoint_registry ↔
      a ∈ dictKeys st.endpoint_registry ∨
        a ∈ cs.flatMap fun c => c.endpoints.map endpointKey := by
  induction cs generalizing st with
  | nil => simp
  | cons c rest ih =>
    simp only [List.foldl_cons, List.flatMap_cons, List.mem_append]
    rw [ih, endpoint_registry_register, mem_keys_endpointFold]
    tauto

theorem nodup_keys_registerAll (cs : List FeatureContract) (st : RegistryState)
    (h : (dictKeys st.endpoint_registry).Nodup) :
    (dictKeys (cs.foldl register_feature_contract st).endpoint_registry).Nodup := by
  induction cs generalizing st with
  | nil => exact h
  | cons c rest ih =>
    apply ih
    rw [endpoint_registry_register]
    exact nodup_keys_endpointFold _ _ h

theorem length_eq_card_of_nodup_iff {l : List String} {m : List String}
    (hn : l.Nodup) (hiff : ∀ a, a ∈ l ↔ a ∈ m) : l.length = m.toFinset.card := by
  have h1 : l.toFinset = m.toFinset := by
    apply Finset.ext
    intro a
    rw [List.mem_toFinset, List.mem_toFinset]
    exact hiff a
  calc l.length = l.dedup.length := by rw [hn.dedup]
    _ = l.toFinset.card := (List.card_toFinset l).symm
    _ = m.toFinset.card := by rw [h1]

/-- C2 (amended): for every sequence of `register` calls,
`all_endpoints()` returns one endpoint per *distinct* `"METHOD path"`
key — the dict index deduplicates, with later registrations
overwriting — so its length is the number of distinct endpoint keys
across all registered contracts, not the sum of the endpoint-list
lengths. -/
theorem c2_amended_all_endpoints_distinct_keys (cs : List FeatureContract) :
    (get_all_endpoints (cs.foldl register_feature_contract emptyRegistry)).length =
      (cs.flatMap fun c => c.endpoints.map endpointKey).toFinset.card := by
  have hlen : (get_all_endpoints (cs.foldl register_feature_contract emptyRegistry)).length
      = (dictKeys (cs.foldl register_feature_contract emptyRegistry).endpoint_registry).length := by
    simp [get_all_endpoints, dictKeys]
  rw [hlen]
  apply length_eq_card_of_nodup_iff
  · exact nodup_keys_registerAll cs emptyRegistry (by simp [emptyRegistry, dictKeys])
  · intro a
    rw [mem_keys_registerAll]
    simp [emptyRegistry, dictKeys]

/-! ### C10: the event channel never removes subscribers -/

theorem subsOf_bus_subscribe (s : BusState) (et et' : String) :
    subsOf (bus_subscribe et' s) et =
      if et' = et then subsOf s et ++ [s.next_id] else subsOf s et := by
  by_cases h : et' = et
  · subst h
    simp [bus_subscribe, subsOf, dictGet?_dictInsert_self]
  · have hne : ¬et = et' := fun hh => h hh.symm
    simp [bus_subscribe, subsOf, dictGet?_dictInsert_ne et et' _ _ hne, h]

theorem subsOf_bus_step_append (s : BusState) (op : BusOp) (et : String) :
    ∃ tail, subsOf (bus_step s op) et = subsOf s et ++ tail := by
  cases op with
  | subscribe et' =>
    rw [show bus_step s (BusOp.subscribe et') = bus_subscribe et' s from rfl,
      subsOf_bus_subscribe]
    by_cases h : et' = et
    · exact ⟨[s.next_id], by rw [if_pos h]⟩
    · exact ⟨[], by rw [if_neg h, List.append_nil]⟩
  | publish et' => exact ⟨[], by simp [bus_step, bus_publish, subsOf]⟩
  | wait_for_event et' =>
    rw [show bus_step s (BusOp.wait_for_event et') = bus_subscribe et' s from rfl,
      subsOf_bus_subscribe]
    by_cases h : et' = et
    · exact ⟨[s.next_id], by rw [if_pos h]⟩
    · exact ⟨[], by rw [if_neg h, List.append_nil]⟩

theorem subsOf_bus_run_append (ops : List BusOp) :
    ∀ (s : BusState) (et : String),
      ∃ tail, subsOf (bus_run s ops) et = subsOf s et ++ tail := by
  induction ops with
  | nil => exact fun s et => ⟨[], by simp [bus_run]⟩
  | cons op rest ih =>
    intro s et
    obtain ⟨t1, h1⟩ := subsOf_bus_step_append s op et
    obtain ⟨t2, h2⟩ := ih (bus_step s op) et
    refine ⟨t1 ++ t2, ?_⟩
    rw [show bus_run s (op :: rest) = bus_run (bus_step s op) rest from rfl, h2, h1,
      List.append_assoc]

/-- C10: no event-channel operation removes a subscriber — along every
operation sequence each event type's subscriber list only ever gets
extended; `wait_for_event` permanently adds exactly one subscriber for
its event type, and every later publish of that type invokes the full
current subscriber list, that waiter included. -/
theorem c10_subscribers_never_removed :
    (∀ (s : BusState) (ops : List BusOp) (et : String),
      ∃ tail, subsOf (bus_run s ops) et = subsOf s et ++ tail) ∧
    (∀ (s : BusState) (et : String),
      subsOf (bus_step s (BusOp.wait_for_event et)) et = subsOf s et ++ [s.next_id]) ∧
    (∀ (s : BusState) (et : String), (bus_publish et s).2 = subsOf s et) ∧
    (∀ (s : BusState) (ops : List BusOp) (et : String),
      s.next_id ∈ (bus_publish et (bus_run (bus_step s (BusOp.wait_for_event et)) ops)).2) := by
  have hwait : ∀ (s : BusState) (et : String),
      subsOf (bus_step s (BusOp.wait_for_event et)) et = subsOf s et ++ [s.next_id] := by
    intro s et
    rw [show bus_step s (BusOp.wait_for_event et) = bus_subscribe et s from rfl,
      subsOf_bus_subscribe, if_pos rfl]
  refine ⟨fun s ops et => subsOf_bus_run_append ops s et, hwait, fun s et => rfl, ?_⟩
  intro s ops et
  obtain ⟨tail, htail⟩ :=
    subsOf_bus_run_append ops (bus_step s (BusOp.wait_for_event et)) et
  rw [show (bus_publish et (bus_run (bus_step s (BusOp.wait_for_event et)) ops)).2 =
      subsOf (bus_run (bus_step s (BusOp.wait_for_event et)) ops) et from rfl,
    htail, hwait]
  simp

/-! ### C5: cycle detection -/

theorem reach0B_refl (g : List (String × List String)) (n : Nat) (x : String) :
    reach0B g n x x = true := by
  cases n <;> simp [reach0B]

theorem reach0B_mono (g : List (String × List String)) :
    ∀ {n m : Nat}, n ≤ m → ∀ {x y : String},
      reach0B g n x y = true → reach0B g m x y = true := by
  intro n
  induction n with
  | zero =>
    intro m _ x y h
    simp only [reach0B, decide_eq_true_eq] at h
    subst h
    exact reach0B_refl g m x
  | succ n ih =>
    intro m hm x y h
    obtain ⟨m', rfl⟩ : ∃ m', m = m' + 1 := ⟨m - 1, by omega⟩
    simp only [reach0B, Bool.or_eq_true, decide_eq_true_eq, List.any_eq_true] at h ⊢
    rcases h with h | ⟨d, hd, hr⟩
    · exact Or.inl h
    · exact Or.inr ⟨d, hd, ih (by omega) hr⟩

theorem hasCircAux_true_elim (g : List (String × List String)) :
    ∀ (fuel : Nat) (f : String) (deps visited : List String),
      fuel ≤ g.length + 2 →
      has_circular_dependency_aux g fuel f deps visited = true →
      f ∈ visited ∨ hasCycleB g = true ∨
        ∃ v, v ∈ f :: visited ∧ ∃ d, d ∈ deps ∧ reach0B g fuel d v = true := by
  intro fuel
  induction fuel with
  | zero =>
    intro f deps visited _ h
    simp [has_circular_dependency_aux] at h
  | succ fuel ih =>
    intro f deps visited hbound h
    by_cases hv : f ∈ visited
    · exact Or.inl hv
    · simp only [has_circular_dependency_aux, if_neg hv, List.any_eq_true] at h
      obtain ⟨d, hd, hmatch⟩ := h
      rcases hds : dictGet? d g with _ | ds
      · rw [hds] at hmatch
        simp at hmatch
      · rw [hds] at hmatch
        simp only at hmatch
        rcases ih d ds (f :: visited) (by omega) hmatch with hcase | hcase | hcase
        · -- the recursion hit the visited guard one level down
          refine Or.inr (Or.inr ⟨d, hcase, d, hd, reach0B_refl g _ d⟩)
        · exact Or.inr (Or.inl hcase)
        · obtain ⟨v, hvmem, d', hd', hr⟩ := hcase
          rcases List.mem_cons.mp hvmem with heq | hvmem'
          · -- a cycle through `v = d` itself: `d -> d' ->* d`
            rw [heq] at hr
            refine Or.inr (Or.inl ?_)
            simp only [hasCycleB, List.any_eq_true]
            refine ⟨d, mem_dictKeys_of_dictGet? hds, d', ?_, ?_⟩
            · rw [hds]; exact hd'
            · exact reach0B_mono g (by omega) hr
          · refine Or.inr (Or.inr ⟨v, hvmem', d, hd, ?_⟩)
            simp only [reach0B, Bool.or_eq_true, decide_eq_true_eq, List.any_eq_true]
            exact Or.inr ⟨d', by rw [hds]; exact hd', hr⟩

/-- C5: after registering contracts for `A` depending on `B` and `B`
depending back on `A`, `validate_consistency()` reports a circular
dependency; and on every registry whose dependency graph is acyclic
(no key reaches itself — diamond shapes included), it reports none:
the visiting-set discipline (add on entry, remove on exit) makes the
check exactly a reachability test along the current path. -/
theorem c5_cycle_detection :
    (validate_cross_stack_consistency fixtureRegAB).dependency_conflicts ≠ [] ∧
    ∀ st : RegistryState, (dictKeys st.dependency_graph).Nodup →
      hasCycleB st.dependency_graph = false →
      (validate_cross_stack_consistency st).dependency_conflicts = [] := by
  constructor
  · decide
  · intro st hnodup hacyc
    simp only [validate_cross_stack_consistency, List.map_eq_nil_iff,
      List.filter_eq_nil_iff]
    intro p hp
    simp only [Bool.not_eq_true]
    by_contra hcirc
    rw [Bool.not_eq_false] at hcirc
    have := hasCircAux_true_elim st.dependency_graph (st.dependency_graph.length + 2)
      p.1 p.2 [] (le_refl _) hcirc
    rcases this with h | h | h
    · simp at h
    · rw [hacyc] at h; exact Bool.false_ne_true h
    · obtain ⟨v, hvmem, d, hd, hr⟩ := h
      rcases List.mem_cons.mp hvmem with heq | hfalse
      · rw [heq] at hr
        have hget : dictGet? p.1 st.dependency_graph = some p.2 := by
          apply dictGet?_eq_some_of_mem hnodup
          rcases p with ⟨a, b⟩
          exact hp
        have hcyc : hasCycleB st.dependency_graph = true := by
          simp only [hasCycleB, List.any_eq_true]
          refine ⟨p.1, ?_, d, ?_, hr⟩
          · exact List.mem_map.mpr ⟨p, hp, rfl⟩
          · rw [hget]; exact hd
        rw [hacyc] at hcyc
        exact Bool.false_ne_true hcyc
      · simp at hfalse

/-- C5 witness: the diamond `A -> \x7bB, C\x7d`, `B -> \x7bD\x7d`,
`C -> \x7bD\x7d` is acyclic and is not flagged. -/
theorem c5_cycle_detection_witness :
    (validate_cross_stack_consistency fixtureRegDiamond).dependency_conflicts = [] :=
  c5_cycle_detection.2 fixtureRegDiamond (by decide) (by decide)

/-! ### C4: chunk optimisation -/

theorem insSortedByPriority_perm (a : ContextChunk) (l : List ContextChunk) :
    (insSortedByPriority a l).Perm (a :: l) := by
  induction l with
  | nil => exact List.Perm.refl _
  | cons b bs ih =>
    by_cases h : b.priority ≤ a.priority
    · rw [show insSortedByPriority a (b :: bs) = b :: insSortedByPriority a bs from by
        simp [insSortedByPriority, h]]
      exact (List.Perm.cons b ih).trans (List.Perm.swap a b bs)
    · rw [show insSortedByPriority a (b :: bs) = a :: b :: bs from by
        simp [insSortedByPriority, h]]

theorem stableSort_foldl_perm (l : List ContextChunk) :
    ∀ acc : List ContextChunk,
      (l.foldl (fun acc a => insSortedByPriority a acc) acc).Perm (acc ++ l) := by
  induction l with
  | nil => intro acc; simp
  | cons a rest ih =>
    intro acc
    have h1 : ((a :: rest).foldl (fun acc a => insSortedByPriority a acc) acc)
        = rest.foldl (fun acc a => insSortedByPriority a acc) (insSortedByPriority a acc) :=
      rfl
    have h2 := ih (insSortedByPriority a acc)
    have h3 : (insSortedByPriority a acc ++ rest).Perm ((a :: acc) ++ rest) :=
      (insSortedByPriority_perm a acc).append_right rest
    have h4 : ((a :: acc) ++ rest).Perm (acc ++ a :: rest) := by
      simp only [List.cons_append]
      exact (List.perm_middle).symm
    rw [h1]
    exact (h2.trans h3).trans h4

theorem stableSortByPriority_perm (l : List ContextChunk) :
    (stableSortByPriority l).Perm l := by
  have := stableSort_foldl_perm l []
  simpa [stableSortByPriority] using this

theorem mem_insSortedByPriority {x a : ContextChunk} {l : List ContextChunk} :
    x ∈ insSortedByPriority a l ↔ x = a ∨ x ∈ l := by
  rw [(insSortedByPriority_perm a l).mem_iff, List.mem_cons]

theorem pairwise_insSortedByPriority (a : ContextChunk) (l : List ContextChunk)
    (h : List.Pairwise (fun x y => x.priority ≤ y.priority) l) :
    List.Pairwise (fun x y => x.priority ≤ y.priority) (insSortedByPriority a l) := by
  induction l with
  | nil => simp [insSortedByPriority]
  | cons b bs ih =>
    rw [List.pairwise_cons] at h
    by_cases hb : b.priority ≤ a.priority
    · rw [show insSortedByPriority a (b :: bs) = b :: insSortedByPriority a bs by
        simp [insSortedByPriority, hb]]
      rw [List.pairwise_cons]
      refine ⟨?_, ih h.2⟩
      intro x hx
      rcases mem_insSortedByPriority.mp hx with rfl | hx2
      · exact hb
      · exact h.1 x hx2
    · rw [show insSortedByPriority a (b :: bs) = a :: b :: bs by
        simp [insSortedByPriority, hb]]
      rw [List.pairwise_cons]
      refine ⟨?_, List.pairwise_cons.mpr h⟩
      intro x hx
      have hab : a.priority ≤ b.priority := by omega
      rcases List.mem_cons.mp hx with rfl | hx2
      · exact hab
      · exact le_trans hab (h.1 x hx2)

theorem pairwise_stableSortByPriority (l : List ContextChunk) :
    List.Pairwise (fun x y => x.priority ≤ y.priority) (stableSortByPriority l) := by
  suffices h : ∀ acc, List.Pairwise (fun x y => x.priority ≤ y.priority) acc →
      List.Pairwise (fun x y => x.priority ≤ y.priority)
        (l.foldl (fun acc a => insSortedByPriority a acc) acc) by
    exact h [] (by simp)
  induction l with
  | nil => intro acc hacc; exact hacc
  | cons a rest ih =>
    intro acc hacc
    exact ih _ (pairwise_insSortedByPriority a acc hacc)

theorem optimizeLoop_keeps_priority1 (maxT : Int) :
    ∀ (l : List ContextChunk) (cur : Int),
      List.Pairwise (fun x y => x.priority ≤ y.priority) l →
      (∀ c ∈ l, 1 ≤ c.priority) →
      (∀ c ∈ l, 0 ≤ c.tokens_estimate) →
      cur + ((l.filter fun c => c.priority == 1).map ContextChunk.tokens_estimate).sum
        ≤ maxT →
      ∀ c ∈ l, c.priority = 1 → c ∈ optimizeLoop maxT l cur := by
  intro l
  induction l with
  | nil => intro cur _ _ _ _ c hc; simp at hc
  | cons c0 rest ih =>
    intro cur hpair hp1 htok hsum c hc hcp
    rw [List.pairwise_cons] at hpair
    by_cases h0 : c0.priority = 1
    · have hfil : (c0 :: rest).filter (fun c => c.priority == 1) =
          c0 :: rest.filter (fun c => c.priority == 1) :=
        List.filter_cons_of_pos (by simp [h0])
      rw [hfil] at hsum
      simp only [List.map_cons, List.sum_cons] at hsum
      have hrest_nonneg :
          0 ≤ ((rest.filter fun c => c.priority == 1).map ContextChunk.tokens_estimate).sum := by
        apply List.sum_nonneg
        intro x hx
        obtain ⟨y, hy, rfl⟩ := List.mem_map.mp hx
        exact htok y (List.mem_cons_of_mem c0 (List.mem_filter.mp hy).1)
      have hfit : cur + c0.tokens_estimate ≤ maxT := by omega
      rw [show optimizeLoop maxT (c0 :: rest) cur =
          c0 :: optimizeLoop maxT rest (cur + c0.tokens_estimate) by
        simp [optimizeLoop, hfit]]
      rcases List.mem_cons.mp hc with rfl | hc'
      · exact List.mem_cons_self c _
      · refine List.mem_cons_of_mem c0 ?_
        refine ih (cur + c0.tokens_estimate) hpair.2
          (fun x hx => hp1 x (List.mem_cons_of_mem c0 hx))
          (fun x hx => htok x (List.mem_cons_of_mem c0 hx)) (by omega) c hc' hcp
    · exfalso
      rcases List.mem_cons.mp hc with rfl | hc'
      · exact h0 hcp
      · have h1 : c0.priority ≤ c.priority := hpair.1 c hc'
        have h2 : 1 ≤ c0.priority := hp1 c0 (List.mem_cons_self c0 rest)
        omega

/-- C4 (amended): the optimisation step keeps chunks greedily in
priority order; the first priority-1 chunk that exceeds the remaining
budget is truncated and *ends* the loop, dropping every later chunk
(priority-1 ones included), so "priority-1 chunks are never dropped"
holds only when the priority-1 chunks jointly fit the budget.  Under
that proviso (with priorities at least 1 and non-negative token
estimates, as the handler constructs them) every priority-1 chunk is
kept untruncated, and only priority-2-or-lower chunks can be
dropped. -/
theorem c4_amended_priority1_kept (maxT : Int) (chunks : List ContextChunk)
    (hp1 : ∀ c ∈ chunks, 1 ≤ c.priority)
    (htok : ∀ c ∈ chunks, 0 ≤ c.tokens_estimate)
    (hsum : ((chunks.filter fun c => c.priority == 1).map
        ContextChunk.tokens_estimate).sum ≤ maxT) :
    ∀ c ∈ chunks, c.priority = 1 → c ∈ optimize_chunks_for_tokens maxT chunks := by
  intro c hc hcp
  have hperm := stableSortByPriority_perm chunks
  have hcs : c ∈ stableSortByPriority chunks := hperm.mem_iff.mpr hc
  rw [optimize_chunks_for_tokens]
  by_cases htot : ((stableSortByPriority chunks).map ContextChunk.tokens_estimate).sum ≤ maxT
  · simpa [htot] using hcs
  · simp only [htot, if_false]
    have hfilperm : (((stableSortByPriority chunks).filter fun c => c.priority == 1)).Perm
        (chunks.filter fun c => c.priority == 1) := hperm.filter _
    have hsum' : (0 : Int) + (((stableSortByPriority chunks).filter
        fun c => c.priority == 1).map ContextChunk.tokens_estimate).sum ≤ maxT := by
      rw [(hfilperm.map ContextChunk.tokens_estimate).sum_eq]
      omega
    exact optimizeLoop_keeps_priority1 maxT (stableSortByPriority chunks) 0
      (pairwise_stableSortByPriority chunks)
      (fun x hx => hp1 x (hperm.mem_iff.mp hx))
      (fun x hx => htok x (hperm.mem_iff.mp hx))
      hsum' c hcs hcp

/-- C4 counterexample: with two priority-1 chunks whose first alone
exceeds the budget, the first is truncated and the loop breaks, so the
second priority-1 chunk is dropped entirely — contradicting "keeps
every priority-1 chunk". -/
theorem c4_counterexample_priority1_dropped :
    fixtureChunkA.priority = 1 ∧ fixtureChunkB.priority = 1 ∧
    (optimize_chunks_for_tokens max_tokens_per_request
        [fixtureChunkA, fixtureChunkB]).map ContextChunk.chunk_id = ["a"] := by
  decide

/-- C4 witness: a chunk set whose priority-1 chunks jointly fit the
budget keeps both priority-1 chunks. -/
theorem c4_amended_priority1_kept_witness :
    fixtureChunkSmall1 ∈ optimize_chunks_for_tokens max_tokens_per_request
        [fixtureChunkSmall1, fixtureChunkBig2, fixtureChunkSmall1b] ∧
    fixtureChunkSmall1b ∈ optimize_chunks_for_tokens max_tokens_per_request
        [fixtureChunkSmall1, fixtureChunkBig2, fixtureChunkSmall1b] :=
  ⟨c4_amended_priority1_kept max_tokens_per_request _ (by decide) (by decide) (by decide)
      fixtureChunkSmall1 (by decide) (by decide),
    c4_amended_priority1_kept max_tokens_per_request _ (by decide) (by decide) (by decide)
      fixtureChunkSmall1b (by decide) (by decide)⟩

/-! ### C8: the component quality validator's generic floors -/

theorem applyDeduction_fst_le (cond : Bool) (p : ℚ) (msg : String)
    (acc : ℚ × List String) (hp : 0 ≤ p) :
    (applyDeduction cond p msg acc).1 ≤ acc.1 := by
  cases cond
  · simp [applyDeduction]
  · simp only [applyDeduction, if_true]
    linarith

theorem applyDeduction_true_fst (p : ℚ) (msg : String) (acc : ℚ × List String) :
    (applyDeduction true p msg acc).1 = acc.1 - p := rfl

theorem applyDeduction_true_mem (p : ℚ) (msg : String) (acc : ℚ × List String) :
    msg ∈ (applyDeduction true p msg acc).2 := by
  simp [applyDeduction]

/-- C8 (amended): for every file whose path does not end in `.sql` or
`.env.example` (those paths skip validation entirely) and whose content
has unequal brace counts, the validator records the CRITICAL bracket
issue and caps the score at 10 minus the brace penalty, 8.0. -/
theorem c8_amended_bracket_floor (fp content : String)
    (h1 : fp.endsWith ".sql" = false) (h2 : fp.endsWith ".env.example" = false)
    (h3 : pyCountChar content '\x7b' ≠ pyCountChar content '\x7d') :
    ("CRITICAL: Bracket mismatch in " ++ fp) ∈
        (validate_single_file_quality fp content).issues ∧
    (validate_single_file_quality fp content).score ≤ 8 := by
  have hcond : decide (pyCountChar content '\x7b' ≠ pyCountChar content '\x7d') = true :=
    decide_eq_true h3
  simp only [validate_single_file_quality, h1, h2, Bool.or_self, Bool.false_eq_true,
    if_false, hcond]
  constructor
  · exact applyDeduction_true_mem _ _ _
  · apply max_le (by norm_num)
    rw [applyDeduction_true_fst, sub_le_iff_le_add]
    norm_num
    iterate 8 refine le_trans (applyDeduction_fst_le _ _ _ _ (by norm_num)) ?_
    norm_num

/-- C8 witness: a brace-mismatched `.js` file is capped at 8 with the
CRITICAL bracket issue recorded. -/
theorem c8_amended_bracket_floor_witness :
    ("CRITICAL: Bracket mismatch in " ++ "a.js") ∈
        (validate_single_file_quality "a.js" "\x7b").issues ∧
    (validate_single_file_quality "a.js" "\x7b").score ≤ 8 :=
  c8_amended_bracket_floor "a.js" "\x7b" (by with_unfolding_all decide)
    (by with_unfolding_all decide) (by decide)

/-! ### C9: the parse fallback chain -/

/-- C9 (amended): the fallback paths can never yield an empty file map
(the text-block sweep that finds nothing is replaced by the fixed
skeleton), but the direct JSON path returns whatever string map the
response contains — so the parse result is empty exactly when the
response carried a valid *empty* JSON object, as with the response
`"\x7b\x7d"`. -/
theorem c9_amended_parse_fallback :
    (∀ (fbm : String → List (String × String)) (response : String),
      extract_code_blocks_fallback fbm response ≠ []) ∧
    (∀ (fbm : String → List (String × String)) (response : String),
      parse_node_response fbm response = [] →
      ∃ jc, json_candidate? (pyStrip response) = some jc ∧ jsonFileMap? jc = some []) := by
  have hfb : ∀ (fbm : String → List (String × String)) (response : String),
      extract_code_blocks_fallback fbm response ≠ [] := by
    intro fbm response
    unfold extract_code_blocks_fallback
    by_cases h : (fbm response).isEmpty
    · simp [h]
    · simp only [h, Bool.false_eq_true, if_false]
      intro hc
      rw [hc] at h
      simp at h
  refine ⟨hfb, ?_⟩
  intro fbm response hparse
  simp only [parse_node_response] at hparse
  split at hparse
  next json_content heq =>
    split at hparse
    next parsed heq2 =>
      exact ⟨json_content, heq, by rw [heq2, hparse]⟩
    next heq2 =>
      exact absurd hparse (hfb fbm response)
  next heq =>
    exact absurd hparse (hfb fbm response)

/-- C9 witness: on the response `"\x7b\x7d"` the parse is empty and
the theorem locates the successful empty JSON interpretation. -/
theorem c9_amended_parse_fallback_witness :
    ∃ jc, json_candidate? (pyStrip "\x7b\x7d") = some jc ∧ jsonFileMap? jc = some [] :=
  c9_amended_parse_fallback.2 noBlocks "\x7b\x7d" (by decide)

/-! ### Pipeline lemmas (C3, C7) -/

theorem claude_request_go_state (oracle : Nat → Except String String) (maxR : Nat) :
    ∀ (n attempt : Nat) (st : GenState), maxR - attempt ≤ n →
      (claude_request_go oracle maxR attempt st).2.registry = st.registry ∧
      (claude_request_go oracle maxR attempt st).2.events = st.events ∧
      (claude_request_go oracle maxR attempt st).2.generation_history =
        st.generation_history := by
  intro n
  induction n with
  | zero =>
    intro attempt st h
    have hge : ¬attempt < maxR := by omega
    rw [claude_request_go]
    simp [hge]
  | succ n ih =>
    intro attempt st h
    by_cases hlt : attempt < maxR
    · rw [claude_request_go]
      simp only [hlt, dif_pos]
      rcases horacle : oracle st.oracle_calls with e | r
      · simp only
        by_cases hguard : (!transientError e && decide (attempt = maxR - 1)) = true
        · simp [hguard]
        · simp only [hguard, Bool.false_eq_true, if_false]
          exact ih (attempt + 1) _ (by omega)
      · simp
    · rw [claude_request_go]
      simp [hlt]

theorem claude_request_with_retry_state (oracle : Nat → Except String String)
    (st : GenState) :
    (claude_request_with_retry oracle st).2.registry = st.registry ∧
    (claude_request_with_retry oracle st).2.events = st.events ∧
    (claude_request_with_retry oracle st).2.generation_history = st.generation_history :=
  claude_request_go_state oracle max_retries max_retries 0 st (by omega)

theorem claude_request_with_retry_const_ok (resp : String) (st : GenState) :
    claude_request_with_retry (fun _ => Except.ok resp) st =
      (Except.ok resp, { st with oracle_calls := st.oracle_calls + 1 }) := by
  unfold claude_request_with_retry
  rw [claude_request_go]
  simp [max_retries]

/-- `_apply_improvements` never publishes and never touches the
registry or history. -/
theorem apply_improvements_state
    (fbm : String → List (String × String))
    (ex : List (String × String) → List String → NodeContracts)
    (oracle : Nat → Except String String) (cur : HandlerResult) (st : GenState) :
    (apply_improvements fbm ex oracle cur st).2.registry = st.registry ∧
    (apply_improvements fbm ex oracle cur st).2.events = st.events ∧
    (apply_improvements fbm ex oracle cur st).2.generation_history =
      st.generation_history := by
  unfold apply_improvements
  rcases hr : claude_request_with_retry oracle st with ⟨r, st1⟩
  have hst := claude_request_with_retry_state oracle st
  rw [hr] at hst
  rcases r with e | resp
  · simpa using hst
  · simpa using hst

/-- An oracle failure inside an improvement cycle is swallowed: the
current result is returned unchanged. -/
theorem apply_improvements_error
    (fbm : String → List (String × String))
    (ex : List (String × String) → List String → NodeContracts)
    (oracle : Nat → Except String String) (cur : HandlerResult) (st : GenState) (e : String)
    (h : (claude_request_with_retry oracle st).1 = Except.error e) :
    (apply_improvements fbm ex oracle cur st).1 = cur := by
  unfold apply_improvements
  rcases hr : claude_request_with_retry oracle st with ⟨r, st1⟩
  rw [hr] at h
  simp only at h
  rw [h]

theorem apply_improvements_success
    (fbm : String → List (String × String))
    (ex : List (String × String) → List String → NodeContracts)
    (oracle : Nat → Except String String) (cur : HandlerResult) (st : GenState)
    (hsucc : cur.success = true) :
    (apply_improvements fbm ex oracle cur st).1.success = true := by
  unfold apply_improvements
  rcases hr : claude_request_with_retry oracle st with ⟨r, st1⟩
  rcases r with e | resp
  · simpa using hsucc
  · simp

theorem refine_loop_success_events
    (fbm : String → List (String × String))
    (ex : List (String × String) → List String → NodeContracts)
    (oracle : Nat → Except String String) (target : ℚ) (maxC : Nat) :
    ∀ (n cycle : Nat) (cur : HandlerResult) (st : GenState), maxC - cycle ≤ n →
      cur.success = true →
      (refine_loop fbm ex oracle target maxC cycle cur st).1.success = true ∧
      ∃ tail, (refine_loop fbm ex oracle target maxC cycle cur st).2.events =
          st.events ++ tail ∧ ∀ x ∈ tail, x = "refinement_cycle_completed" := by
  intro n
  induction n with
  | zero =>
    intro cycle cur st h hsucc
    have hcond : ¬(cur.quality_score < target ∧ cycle < maxC) := by
      rintro ⟨_, hc⟩; omega
    rw [refine_loop]
    simp only [hcond, dite_false, dif_neg, not_false_iff]
    exact ⟨hsucc, [], by simp, by simp⟩
  | succ n ih =>
    intro cycle cur st h hsucc
    by_cases hcond : cur.quality_score < target ∧ cycle < maxC
    · rw [refine_loop]
      rw [dif_pos hcond]
      rcases happ : apply_improvements fbm ex oracle cur st with ⟨imp, st1⟩
      simp only [happ]
      have himp : imp.success = true := by
        have := apply_improvements_success fbm ex oracle cur st hsucc
        rw [happ] at this
        exact this
      have hst1 : st1.events = st.events := by
        have := (apply_improvements_state fbm ex oracle cur st).2.1
        rw [happ] at this
        exact this
      obtain ⟨hsucc2, tail, htail, hall⟩ :=
        ih (cycle + 1) { imp with refinement_cycles := cycle + 1 }
          (publish_handler_event "refinement_cycle_completed" st1) (by omega) himp
      refine ⟨hsucc2, "refinement_cycle_completed" :: tail, ?_, ?_⟩
      · rw [htail]
        simp [publish_handler_event, hst1]
      · intro x hx
        rcases List.mem_cons.mp hx with rfl | hx'
        · rfl
        · exact hall x hx'
    · rw [refine_loop]
      rw [dif_neg hcond]
      exact ⟨hsucc, [], by simp, by simp⟩

theorem node_generate_error
    (fbm : String → List (String × String))
    (ex : List (String × String) → List String → NodeContracts)
    (oracle : Nat → Except String String) (features : List String) (st : GenState)
    (e : String) (h : (claude_request_with_retry oracle st).1 = Except.error e) :
    node_generate_with_chunked_context fbm ex oracle true features st =
      (Except.error e, (claude_request_with_retry oracle st).2) := by
  unfold node_generate_with_chunked_context
  rcases hr : claude_request_with_retry oracle st with ⟨r, st1⟩
  rw [hr] at h
  simp only at h
  subst h
  simp

theorem node_generate_ok
    (fbm : String → List (String × String))
    (ex : List (String × String) → List String → NodeContracts)
    (oracle : Nat → Except String String) (features : List String) (st : GenState)
    (resp : String) (h : (claude_request_with_retry oracle st).1 = Except.ok resp) :
    node_generate_with_chunked_context fbm ex oracle true features st =
      (Except.ok
        { success := true, handler_type := "node_backend",
          features_implemented := features,
          code_files := parse_node_response fbm resp,
          contracts := ex (parse_node_response fbm resp) features,
          quality_score :=
            (validate_code_quality (parse_node_response fbm resp)).overall_score },
       { (claude_request_with_retry oracle st).2 with
          registry :=
            register_api_contracts features (ex (parse_node_response fbm resp) features)
              (claude_request_with_retry oracle st).2.registry }) := by
  unfold node_generate_with_chunked_context
  rcases hr : claude_request_with_retry oracle st with ⟨r, st1⟩
  rw [hr] at h
  simp only at h
  subst h
  simp

/-- C3 (amended): an oracle failure in the *initial* generation call is
fatal to the component — `generate_code` returns the failure result
(success flag false, empty file map, score 0, the error message) and
publishes exactly one failure event; but an oracle failure during an
improvement cycle is caught inside `_apply_improvements`, which returns
the current result unchanged, so whenever the initial call succeeds the
component result reports success and no failure event is ever
published, no matter how the improvement-cycle calls fail. -/
theorem c3_amended_oracle_failure_policy :
    (∀ (fbm : String → List (String × String))
        (ex : List (String × String) → List String → NodeContracts)
        (oracle : Nat → Except String String) (features : List String)
        (target : ℚ) (st : GenState) (e : String),
      (claude_request_with_retry oracle st).1 = Except.error e →
      (generate_code fbm ex oracle true features target st).1 =
        { success := false, handler_type := "node_backend",
          features_implemented := [], code_files := [], contracts := {},
          quality_score := 0, error_message := some e } ∧
      (generate_code fbm ex oracle true features target st).2.events =
        st.events ++ ["handler_generation_failed"]) ∧
    (∀ (fbm : String → List (String × String))
        (ex : List (String × String) → List String → NodeContracts)
        (oracle : Nat → Except String String) (features : List String)
        (target : ℚ) (st : GenState) (resp : String),
      (claude_request_with_retry oracle st).1 = Except.ok resp →
      (generate_code fbm ex oracle true features target st).1.success = true ∧
      ∃ tail, (generate_code fbm ex oracle true features target st).2.events =
          st.events ++ tail ∧ "handler_generation_failed" ∉ tail) := by
  constructor
  · intro fbm ex oracle features target st e h
    unfold generate_code
    rw [node_generate_error fbm ex oracle features st e h]
    have hev : (claude_request_with_retry oracle st).2.events = st.events :=
      (claude_request_with_retry_state oracle st).2.1
    simp [publish_handler_event, hev]
  · intro fbm ex oracle features target st resp h
    unfold generate_code
    rw [node_generate_ok fbm ex oracle features st resp h]
    simp only
    set parsed := parse_node_response fbm resp with hparsed
    set initial : HandlerResult :=
      { success := true, handler_type := "node_backend",
        features_implemented := features, code_files := parsed,
        contracts := ex parsed features,
        quality_score := (validate_code_quality parsed).overall_score } with hinit
    set st1 : GenState :=
      { (claude_request_with_retry oracle st).2 with
        registry :=
          register_api_contracts features (ex parsed features)
            (claude_request_with_retry oracle st).2.registry } with hst1
    have hev1 : st1.events = st.events :=
      (claude_request_with_retry_state oracle st).2.1
    by_cases hq : initial.quality_score < target
    · rw [if_pos hq]
      rcases hloop : refine_until_quality_met fbm ex oracle initial target st1
        with ⟨refined, st2⟩
      obtain ⟨hsucc, tail, htail, hall⟩ :=
        refine_loop_success_events fbm ex oracle target max_refinement_cycles
          max_refinement_cycles 0 initial st1 (by omega) rfl
      rw [show refine_loop fbm ex oracle target max_refinement_cycles 0 initial st1 =
          refine_until_quality_met fbm ex oracle initial target st1 from rfl,
        hloop] at hsucc htail
      simp only [hloop]
      have htail2 : st2.events = st1.events ++ tail := by simpa using htail
      refine ⟨by simpa using hsucc, tail ++ ["node_backend_generation_completed"], ?_, ?_⟩
      · simp [finalize_generation, publish_handler_event, htail2, hev1, List.append_assoc,
          (claude_request_with_retry_state oracle st).2.1]
      · intro hmem
        rcases List.mem_append.mp hmem with hmem' | hmem'
        · have := hall _ hmem'
          simp at this
        · simp at hmem'
    · rw [if_neg hq]
      refine ⟨rfl, ["node_backend_generation_completed"], ?_, ?_⟩
      · simp [finalize_generation, publish_handler_event,
          (claude_request_with_retry_state oracle st).2.1]
      · simp

/-- C3 counterexample: with an oracle whose initial call succeeds (low
score) and whose improvement-cycle calls all raise, the claim demands a
failure result and one failure event, but `generate_code` returns
success and publishes no failure event (the improvement failures are
swallowed inside `_apply_improvements`). -/
theorem c3_counterexample_improvement_failure_swallowed :
    oracleImpFail 1 = Except.error "oracle down" ∧
    (generate_code noBlocks noContracts oracleImpFail true ["f"] 8 {}).1.success = true ∧
    (generate_code noBlocks noContracts oracleImpFail true ["f"] 8 {}).2.events.count
      "handler_generation_failed" = 0 := by
  refine ⟨rfl, ?_, ?_⟩ <;> with_unfolding_all decide

/-- C3 witness: both halves applied — an always-failing oracle yields
the failure result with exactly one failure event; an always-succeeding
oracle yields a success result and no failure event. -/
theorem c3_amended_oracle_failure_policy_witness :
    ((generate_code noBlocks noContracts oracleFail true ["f"] 8 {}).1 =
      { success := false, handler_type := "node_backend",
        features_implemented := [], code_files := [], contracts := {},
        quality_score := 0, error_message := some "boom" } ∧
     (generate_code noBlocks noContracts oracleFail true ["f"] 8 {}).2.events =
      ({} : GenState).events ++ ["handler_generation_failed"]) ∧
    ((generate_code noBlocks noContracts oracleFixed true ["f"] 8 {}).1.success = true ∧
     ∃ tail, (generate_code noBlocks noContracts oracleFixed true ["f"] 8 {}).2.events =
        ({} : GenState).events ++ tail ∧ "handler_generation_failed" ∉ tail) :=
  ⟨c3_amended_oracle_failure_policy.1 noBlocks noContracts oracleFail ["f"] 8 {} "boom"
      (by with_unfolding_all rfl),
   c3_amended_oracle_failure_policy.2 noBlocks noContracts oracleFixed ["f"] 8 {}
      "\x7b\x7d" (by with_unfolding_all rfl)⟩

/-! ### C7: cycle-budget exhaustion -/

theorem parseMembers_nodup :
    ∀ (fuel : Nat) (acc : List (String × String)) (cs : List Char)
      (d : List (String × String)) (rest : List Char),
      (dictKeys acc).Nodup → parseMembers fuel acc cs = some (d, rest) →
      (dictKeys d).Nodup := by
  intro fuel
  induction fuel with
  | zero =>
    intro acc cs d rest h hp
    simp [parseMembers] at hp
  | succ fuel ih =>
    intro acc cs d rest h hp
    rw [parseMembers] at hp
    repeat' split at hp
    all_goals
      first
        | exact Option.noConfusion hp
        | (cases hp; exact nodup_dictKeys_dictInsert _ _ _ h)
        | exact ih _ _ _ _ (nodup_dictKeys_dictInsert _ _ _ h) hp

theorem jsonFileMap?_nodup (s : String) (d : List (String × String))
    (h : jsonFileMap? s = some d) : (dictKeys d).Nodup := by
  rw [jsonFileMap?] at h
  repeat' split at h
  all_goals
    first
      | exact Option.noConfusion h
      | (cases h; exact List.nodup_nil)
      | (rename_i hmem hok
         cases h
         exact parseMembers_nodup _ [] _ _ _ List.nodup_nil hmem)

theorem extract_code_blocks_fallback_nodup
    (fbm : String → List (String × String)) (response : String)
    (hfbm : ∀ r, (dictKeys (fbm r)).Nodup) :
    (dictKeys (extract_code_blocks_fallback fbm response)).Nodup := by
  unfold extract_code_blocks_fallback
  by_cases h : (fbm response).isEmpty
  · simp only [h, if_true]
    decide
  · simp only [h, Bool.false_eq_true, if_false]
    exact hfbm response

theorem parse_node_response_nodup (fbm : String → List (String × String))
    (hfbm : ∀ r, (dictKeys (fbm r)).Nodup) (resp : String) :
    (dictKeys (parse_node_response fbm resp)).Nodup := by
  simp only [parse_node_response]
  split
  next jc heq =>
    split
    next parsed heq2 => exact jsonFileMap?_nodup jc parsed heq2
    next heq2 => exact extract_code_blocks_fallback_nodup fbm resp hfbm
  next heq => exact extract_code_blocks_fallback_nodup fbm resp hfbm

theorem dictInsert_eq_of_mem {k : String} {v : α} {d : List (String × α)}
    (hd : (dictKeys d).Nodup) (hm : (k, v) ∈ d) : dictInsert k v d = d := by
  induction d with
  | nil => simp at hm
  | cons p rest ih =>
    obtain ⟨k₀, v₀⟩ := p
    rw [dictKeys_cons, List.nodup_cons] at hd
    rcases List.mem_cons.mp hm with heq | hmem
    · rw [← heq]
      simp [dictInsert]
    · by_cases hk : k₀ = k
      · exfalso
        subst hk
        apply hd.1
        exact List.mem_map.mpr ⟨(k₀, v), hmem, rfl⟩
      · simp [dictInsert, hk, ih hd.2 hmem]

theorem dictUpdate_of_sub (d : List (String × α)) (hd : (dictKeys d).Nodup) :
    ∀ l : List (String × α), (∀ p ∈ l, p ∈ d) →
      l.foldl (fun acc p => dictInsert p.1 p.2 acc) d = d := by
  intro l
  induction l with
  | nil => intro _; rfl
  | cons p rest ih =>
    intro hsub
    simp only [List.foldl_cons]
    have hp : (p.1, p.2) ∈ d := by
      have := hsub p (List.mem_cons_self p rest)
      rcases p with ⟨a, b⟩
      exact this
    rw [dictInsert_eq_of_mem hd hp]
    exact ih (fun q hq => hsub q (List.mem_cons_of_mem p hq))

theorem dictUpdate_self (d : List (String × α)) (hd : (dictKeys d).Nodup) :
    dictUpdate d d = d :=
  dictUpdate_of_sub d hd d (fun _ hp => hp)

theorem apply_improvements_const_ok
    (fbm : String → List (String × String))
    (ex : List (String × String) → List String → NodeContracts)
    (resp : String) (cur : HandlerResult) (st : GenState)
    (hfiles : cur.code_files = parse_node_response fbm resp)
    (hnodup : (dictKeys (parse_node_response fbm resp)).Nodup) :
    apply_improvements fbm ex (fun _ => Except.ok resp) cur st =
      ({ success := true, handler_type := "node_backend",
         features_implemented := cur.features_implemented,
         code_files := parse_node_response fbm resp,
         contracts := ex (parse_node_response fbm resp) cur.features_implemented,
         quality_score :=
           (validate_code_quality (parse_node_response fbm resp)).overall_score,
         tokens_used := cur.tokens_used,
         refinement_cycles := cur.refinement_cycles },
       { st with oracle_calls := st.oracle_calls + 1 }) := by
  unfold apply_improvements
  rw [claude_request_with_retry_const_ok]
  simp only
  rw [hfiles, show dictUpdate (parse_node_response fbm resp) (parse_node_response fbm resp)
      = parse_node_response fbm resp from dictUpdate_self _ hnodup]

theorem refine_loop_const_ok
    (fbm : String → List (String × String))
    (ex : List (String × String) → List String → NodeContracts)
    (resp : String) (target : ℚ) (maxC : Nat)
    (hnodup : (dictKeys (parse_node_response fbm resp)).Nodup)
    (hscore : (validate_code_quality (parse_node_response fbm resp)).overall_score
      < target) :
    ∀ (n cycle : Nat) (cur : HandlerResult) (st : GenState), maxC - cycle ≤ n →
      cycle ≤ maxC →
      cur.code_files = parse_node_response fbm resp →
      cur.quality_score =
        (validate_code_quality (parse_node_response fbm resp)).overall_score →
      cur.success = true → cur.refinement_cycles = cycle →
      (refine_loop fbm ex (fun _ => Except.ok resp) target maxC cycle cur
          st).1.refinement_cycles = maxC ∧
      (refine_loop fbm ex (fun _ => Except.ok resp) target maxC cycle cur
          st).1.success = true := by
  intro n
  induction n with
  | zero =>
    intro cycle cur st hn hle hfiles hq hsucc hcyc
    have hcond : ¬(cur.quality_score < target ∧ cycle < maxC) := by
      rintro ⟨_, hc⟩; omega
    rw [refine_loop, dif_neg hcond]
    have : cycle = maxC := by omega
    exact ⟨by rw [hcyc, this], hsucc⟩
  | succ n ih =>
    intro cycle cur st hn hle hfiles hq hsucc hcyc
    by_cases hlt : cycle < maxC
    · have hcond : cur.quality_score < target ∧ cycle < maxC := by
        rw [hq]; exact ⟨hscore, hlt⟩
      rw [refine_loop, dif_pos hcond]
      rw [apply_improvements_const_ok fbm ex resp cur st hfiles hnodup]
      simp only
      exact ih (cycle + 1) _ _ (by omega) (by omega) rfl rfl rfl rfl
    · have hcond : ¬(cur.quality_score < target ∧ cycle < maxC) := by
        rintro ⟨_, hc⟩; omega
      rw [refine_loop, dif_neg hcond]
      have : cycle = maxC := by omega
      exact ⟨by rw [hcyc, this], hsucc⟩

/-- C7: with an oracle that always returns the same fixed response
whose validated file map scores below the target, the refinement loop
runs exactly `max_refinement_cycles` (5) improvement cycles and the
returned result carries `refinement_cycles = max_refinement_cycles`
with the success flag still true — cycle-budget exhaustion is not a
failure. -/
theorem c7_exhaustion_not_failure
    (fbm : String → List (String × String))
    (ex : List (String × String) → List String → NodeContracts)
    (resp : String) (features : List String) (target : ℚ) (st : GenState)
    (hfbm : ∀ r, (dictKeys (fbm r)).Nodup)
    (hscore : (validate_code_quality (parse_node_response fbm resp)).overall_score
      < target) :
    (generate_code fbm ex (fun _ => Except.ok resp) true features target
        st).1.refinement_cycles = max_refinement_cycles ∧
    (generate_code fbm ex (fun _ => Except.ok resp) true features target
        st).1.success = true := by
  have hnodup := parse_node_response_nodup fbm hfbm resp
  unfold generate_code
  rw [node_generate_ok fbm ex (fun _ => Except.ok resp) features st resp
    (by rw [claude_request_with_retry_const_ok])]
  simp only
  set parsed := parse_node_response fbm resp with hparsed
  set initial : HandlerResult :=
    { success := true, handler_type := "node_backend",
      features_implemented := features, code_files := parsed,
      contracts := ex parsed features,
      quality_score := (validate_code_quality parsed).overall_score } with hinit
  set st1 : GenState :=
    { (claude_request_with_retry (fun _ => Except.ok resp) st).2 with
      registry := register_api_contracts features (ex parsed features)
        (claude_request_with_retry (fun _ => Except.ok resp) st).2.registry } with hst1
  rw [if_pos (show initial.quality_score < target from hscore)]
  rcases hloop : refine_until_quality_met fbm ex (fun _ => Except.ok resp) initial
      target st1 with ⟨refined, st2⟩
  have hres := refine_loop_const_ok fbm ex resp target max_refinement_cycles hnodup
    hscore max_refinement_cycles 0 initial st1 (by omega) (by omega) rfl rfl rfl rfl
  rw [show refine_loop fbm ex (fun _ => Except.ok resp) target max_refinement_cycles 0
      initial st1 = refine_until_quality_met fbm ex (fun _ => Except.ok resp) initial
      target st1 from rfl, hloop] at hres
  simp only [hloop]
  simpa using hres

/-- C7 witness: the fixed response `"\x7b\x7d"` parses to an empty map
scoring 0, below the default target 8; the pipeline runs all 5 cycles
and still reports success. -/
theorem c7_exhaustion_not_failure_witness :
    (generate_code noBlocks noContracts (fun _ => Except.ok "\x7b\x7d") true ["f"] 8
        ({} : GenState)).1.refinement_cycles = max_refinement_cycles ∧
    (generate_code noBlocks noContracts (fun _ => Except.ok "\x7b\x7d") true ["f"] 8
        ({} : GenState)).1.success = true :=
  c7_exhaustion_not_failure noBlocks noContracts "\x7b\x7d" ["f"] 8 {}
    (fun _ => List.nodup_nil) (by with_unfolding_all decide)

end CodeGen
